import Mathlib

set_option maxHeartbeats 1000000
set_option autoImplicit false

/-
Shallow embedding of the Excel-MCP employee-classification system
(agent/employee_agent.py, mcp_server/tools.py, mcp_server/schema.py).

Scalar cell values that flow through the agent are JSON-native Python
values: None, strings, numbers and booleans (pandas NaN is converted to
None by convert_to_json_serializable before the agent sees it).
Numbers are embedded as exact fractions in lowest terms; all operations
below normalize through `fmk`, so structural equality of `Frac` values
coincides with numeric equality.
-/

/-- An exact fraction `num / den`, kept in lowest terms by the smart
constructors below so that equality is structural and executable. -/
structure Frac where
  num : Int
  den : Nat
deriving DecidableEq, Repr

/-- Build a fraction in lowest terms from an integer numerator and a
natural denominator. -/
def fmk (n : Int) (d : Nat) : Frac :=
  let g := n.natAbs.gcd d
  if g = 0 then ⟨0, 1⟩ else ⟨n / (g : Int), d / g⟩

def Frac.ofInt (n : Int) : Frac := ⟨n, 1⟩

/-- Build a fraction from two integers, moving the sign to the numerator. -/
def fmkI (n d : Int) : Frac :=
  if d < 0 then fmk (-n) (-d).toNat else fmk n d.toNat

def Frac.mul (a b : Frac) : Frac := fmk (a.num * b.num) (a.den * b.den)

def Frac.add (a b : Frac) : Frac :=
  fmk (a.num * (b.den : Int) + b.num * (a.den : Int)) (a.den * b.den)

def Frac.div (a b : Frac) : Frac :=
  fmkI (a.num * (b.den : Int)) ((a.den : Int) * b.num)

/-- Floor of a fraction. -/
def Frac.floor (a : Frac) : Int := Int.fdiv a.num a.den

inductive Value where
  | null : Value
  | str : String → Value
  | num : Frac → Value
  | bool : Bool → Value
deriving DecidableEq, Repr

/-- Python truthiness (`bool(v)`): None is falsy, "" is falsy, 0 is falsy. -/
def Value.truthy : Value → Bool
  | .null => false
  | .str s => !(s == "")
  | .num q => !(q.num == 0)
  | .bool b => b

/-- `pd.isna(v)` on JSON-native values: true exactly for None. -/
def Value.isna : Value → Bool
  | .null => true
  | _ => false

/-- Characters stripped by Python `str.strip()` with no arguments. -/
def isPyWS (c : Char) : Bool :=
  c == ' ' || c == '\t' || c == '\n' || c == '\r' || c == '\x0b' || c == '\x0c'

/-- Strip leading and trailing whitespace from a character list. -/
def trimChars (l : List Char) : List Char :=
  ((l.dropWhile isPyWS).reverse.dropWhile isPyWS).reverse

/-- Python `str.strip()`. -/
def pyStrip (s : String) : String := ⟨trimChars s.data⟩

/-- Python `str(v)`.  Integral numbers render like Python ints
("0", "7"); that is the only numeric rendering the claims exercise. -/
def Value.pyStr : Value → String
  | .null => "None"
  | .str s => s
  | .num q =>
    if q.den = 1 then toString q.num
    else toString q.num ++ "/" ++ toString q.den
  | .bool b => if b then "True" else "False"

/- ----- mcp_server/schema.py ----- -/

def departmentEnum : List String := ["Web", "AI", "HR", "Finance", "Operations"]
def designationEnum : List String := ["Intern", "Junior", "Senior", "Lead"]
def salaryBandEnum : List String := ["L1", "L2", "L3"]
def skillLevelEnum : List String := ["Beginner", "Intermediate", "Expert"]
def yesNoEnum : List String := ["Yes", "No"]

/-- Keys of the DROPDOWNS dict (`col in DROPDOWNS`). -/
def dropdownCols : List String :=
  ["Department", "Designation", "Salary_Band", "Skill_Level",
   "Promotion_Eligibility", "Is_Processed"]

/-- `DROPDOWNS[col]`, the fixed enumeration of each dropdown column. -/
def DROPDOWNS (c : String) : List String :=
  if c = "Department" then departmentEnum
  else if c = "Designation" then designationEnum
  else if c = "Salary_Band" then salaryBandEnum
  else if c = "Skill_Level" then skillLevelEnum
  else if c = "Promotion_Eligibility" then yesNoEnum
  else if c = "Is_Processed" then yesNoEnum
  else []

/-- Python `v in listOfStrings`: only an equal string is a member. -/
def valInList (v : Value) (l : List String) : Bool :=
  match v with
  | .str s => l.contains s
  | _ => false

/- ----- agent/employee_agent.py : decision and per-field merge ----- -/

/-- The oracle's parsed JSON decision.  Department/Designation/Salary_Band
are raw JSON values (the agent applies `str(...).strip()` itself);
Reason and Confidence are used only after `str(...)` / `float(...)`
conversion, so they are embedded already typed. -/
structure Decision where
  department : Value
  designation : Value
  salaryBand : Value
  reason : String
  confidence : Frac
deriving DecidableEq, Repr

/-- `str(decision.get(F, "")).strip()` for a classification field F. -/
def decisionField (v : Value) : String := pyStrip v.pyStr

/-- The emptiness test the agent applies to a current cell value:
`not cur or pd.isna(cur) or str(cur).strip() == ""`. -/
def isEmptyCell (v : Value) : Bool :=
  !v.truthy || v.isna || (pyStrip v.pyStr == "")

/-- Per-field merge policy of the reconciliation loop
(employee_agent.py lines 249-280), for one classification field:
fill when current is empty and the decision value non-empty, override
when both truthy-non-empty and the stripped strings differ. -/
def stageField (cur : Value) (dec : String) : Option String :=
  if isEmptyCell cur && !(dec == "") then some dec
  else if cur.truthy && !(dec == "") && !(pyStrip cur.pyStr == pyStrip dec) then
    some dec
  else none

/-- Python `round(q, 1)` on the exact value: round to nearest tenth. -/
def round1 (q : Frac) : Frac :=
  fmk (((q.mul (Frac.ofInt 10)).add (fmk 1 2)).floor) 10

/-- Experience derivation (employee_agent.py lines 204-232).  Dates are
day numbers; `parse` stands for `pd.to_datetime(...)` on strings
(returning none when it raises).  A falsy DOJ is skipped entirely; a
truthy non-string DOJ falls through the isinstance chain and yields no
date, hence no experience.  365.25 is the exact fraction 1461/4. -/
def calcExperience (parse : String → Option Int) (today : Int) (doj : Value) :
    Option Frac :=
  if doj.truthy then
    match doj with
    | .str s =>
      match parse s with
      | some d => some (round1 ((Frac.ofInt (today - d)).div (fmk 1461 4)))
      | none => none
    | _ => none
  else none

/-- One row's reconciliation (employee_agent.py lines 199-280): builds the
`updates` dict in insertion order together with the `needs_update` flag.
Experience, when computable, is always staged; each classification field
is staged according to `stageField`. -/
def buildUpdates (parse : String → Option Int) (today : Int)
    (data : String → Value) (d : Decision) : List (String × Value) × Bool :=
  let exp := calcExperience parse today (data "DOJ")
  let u0 : List (String × Value) :=
    match exp with
    | some e => [("Experience_Years", Value.num e)]
    | none => []
  let n0 : Bool := exp.isSome
  let dept := decisionField d.department
  let desig := decisionField d.designation
  let band := decisionField d.salaryBand
  let s1 := stageField (data "Department") dept
  let u1 := match s1 with
    | some v => u0 ++ [("Department", Value.str v)]
    | none => u0
  let n1 := n0 || s1.isSome
  let s2 := stageField (data "Designation") desig
  let u2 := match s2 with
    | some v => u1 ++ [("Designation", Value.str v)]
    | none => u1
  let n2 := n1 || s2.isSome
  let s3 := stageField (data "Salary_Band") band
  let u3 := match s3 with
    | some v => u2 ++ [("Salary_Band", Value.str v)]
    | none => u2
  let n3 := n2 || s3.isSome
  (u3, n3)

/- ----- mcp_server/tools.py : the record store ----- -/

/-- The Excel sheet as pandas sees it: a header row of column names and a
rectangular grid of cell values. -/
structure DataFrame where
  columns : List String
  cells : List (List Value)
deriving DecidableEq, Repr

/-- Every row has exactly one cell per column (structural invariant of a
pandas DataFrame). -/
def DataFrame.Wf (df : DataFrame) : Prop :=
  ∀ r ∈ df.cells, r.length = df.columns.length

/-- Index of the first occurrence of `c` in a list of column names. -/
def colIdx (c : String) : List String → Option Nat
  | [] => none
  | x :: xs => if x = c then some 0 else (colIdx c xs).map (· + 1)

/-- `df.columns.get_loc(c)`: the first position of column `c`. -/
def DataFrame.getLoc (df : DataFrame) (c : String) : Option Nat :=
  colIdx c df.columns

/-- `df.iloc[i, j] = v`. -/
def DataFrame.setCellN (df : DataFrame) (i j : Nat) (v : Value) : DataFrame :=
  { df with cells := df.cells.set i ((df.cells.getD i []).set j v) }

/-- Assign a cell addressed by column name; a missing column is left
alone (the caller guards with `col in df.columns`). -/
def DataFrame.setByName (df : DataFrame) (i : Nat) (c : String) (v : Value) :
    DataFrame :=
  match df.getLoc c with
  | some j => df.setCellN i j v
  | none => df

/-- `data.get(c)` of the dict built from row `i` (missing column → None). -/
def DataFrame.dataOf (df : DataFrame) (i : Nat) (c : String) : Value :=
  match df.getLoc c with
  | some j => (df.cells.getD i []).getD j Value.null
  | none => Value.null

/-- `if c not in df.columns: df[c] = default` (appends one cell to every
row). -/
def DataFrame.ensureColumn (df : DataFrame) (c : String) (default : Value) :
    DataFrame :=
  if df.columns.contains c then df
  else ⟨df.columns ++ [c], df.cells.map (· ++ [default])⟩

/-- tools.py lines 160-172: make the six audit columns exist. -/
def ensureAuditColumns (df : DataFrame) : DataFrame :=
  ((((((df.ensureColumn "Is_Processed" (.str "No")).ensureColumn
      "AI_Decision_Reason" (.str "")).ensureColumn
      "Confidence_Score" (.num (Frac.ofInt 0))).ensureColumn
      "Last_Processed_On" .null).ensureColumn
      "Processing_Version" .null).ensureColumn
      "Rule_Applied" .null)

/-- tools.py lines 174-180: the validation loop.  Returns the first
update entry that is a non-empty value for a dropdown column outside its
enumeration (the entry on which `ValueError` is raised), if any. -/
def validateUpdates (updates : List (String × Value)) :
    Option (String × Value) :=
  updates.find? fun p =>
    dropdownCols.contains p.1 && p.2.truthy &&
    !(pyStrip p.2.pyStr == "") && !(valInList p.2 (DROPDOWNS p.1))

/-- tools.py lines 184-189: the apply loop.  Only truthy values are
written; a column absent from the sheet is skipped with a warning. -/
def applyUpdates (df : DataFrame) (i : Nat) :
    List (String × Value) → DataFrame
  | [] => df
  | (c, v) :: rest =>
    applyUpdates
      (if v.truthy then
        (if df.columns.contains c then df.setByName i c v else df)
      else df) i rest

/-- tools.py lines 191-194: the unconditional audit-field writes. -/
def setAudit (df : DataFrame) (i : Nat) (reason : String) (confidence : Frac)
    (now : Value) : DataFrame :=
  (((df.setByName i "Is_Processed" (.str "Yes")).setByName
      i "AI_Decision_Reason" (.str reason)).setByName
      i "Confidence_Score" (.num confidence)).setByName
      i "Last_Processed_On" now

inductive UpdateError where
  | invalidRowId : UpdateError
  | validationError : String → Value → UpdateError
deriving DecidableEq, Repr

/-- tools.py `update_employee_row` (lines 134-212): row-bound check, audit
columns, enumeration validation, guarded apply loop, audit writes, save.
An error return models the raised `ValueError`, before anything reaches
the file, so the store is unchanged in that case. -/
def update_employee_row (df : DataFrame) (row_id : Int)
    (updates : List (String × Value)) (reason : String) (confidence : Frac)
    (now : Value) : Except UpdateError DataFrame :=
  if row_id < 0 ∨ (df.cells.length : Int) ≤ row_id then .error .invalidRowId
  else
    let df1 := ensureAuditColumns df
    match validateUpdates updates with
    | some (c, v) => .error (.validationError c v)
    | none =>
      let df2 := applyUpdates df1 row_id.toNat updates
      .ok (setAudit df2 row_id.toNat reason confidence now)

/- ----- agent/employee_agent.py : per-row orchestration ----- -/

inductive RowResult where
  | success : RowResult
  | failed : RowResult
  | skipped : RowResult
deriving DecidableEq, Repr

/-- One fetched employee: the positional row id, the data dict of the
initial snapshot, the outcome of the oracle call for this row (an error
models `llm_decide` raising after its retries), and whether the store
save raises an I/O error for this row's write. -/
structure RowItem where
  rowId : Int
  data : String → Value
  oracle : Except Unit Decision
  writeIO : Bool

/-- The `apply_employee_update` tool call as the agent sees it: a raised
error becomes an error result, counted as a failure, and leaves the
store as it was. -/
def attemptWrite (df : DataFrame) (rid : Int) (updates : List (String × Value))
    (reason : String) (confidence : Frac) (now : Value) :
    RowResult × DataFrame :=
  match update_employee_row df rid updates reason confidence now with
  | .ok df2 => (.success, df2)
  | .error _ => (.failed, df)

/-- One iteration of the agent's per-row loop (employee_agent.py lines
191-323): derive, decide, reconcile, then skip or write; any per-row
failure (oracle, validation, write I/O) yields `.failed` and leaves the
store unchanged. -/
def processRow (parse : String → Option Int) (today : Int) (now : Value)
    (df : DataFrame) (it : RowItem) : RowResult × DataFrame :=
  match it.oracle with
  | .error _ => (.failed, df)
  | .ok d =>
    let bu := buildUpdates parse today it.data d
    if bu.2 = false ∧ bu.1 = [] then (.skipped, df)
    else if it.writeIO then (.failed, df)
    else attemptWrite df it.rowId bu.1 d.reason d.confidence now

/-- The run counters (stats dict, without the start time). -/
structure Stats where
  success : Nat
  failed : Nat
  skipped : Nat
deriving DecidableEq, Repr

def applyResult (s : Stats) : RowResult → Stats
  | .success => { s with success := s.success + 1 }
  | .failed => { s with failed := s.failed + 1 }
  | .skipped => { s with skipped := s.skipped + 1 }

/-- The agent's main loop over all fetched employees. -/
def processAll (parse : String → Option Int) (today : Int) (now : Value)
    (df : DataFrame) (items : List RowItem) (s : Stats) : Stats × DataFrame :=
  match items with
  | [] => (s, df)
  | it :: rest =>
    let r := processRow parse today now df it
    processAll parse today now r.2 rest (applyResult s r.1)

/-- What the fetch stage can produce: a failure before the tool call
(connection or session setup, which propagates), a tool-level error
result (`result.isError`), or the employee list. -/
inductive FetchOutcome where
  | connectFail : FetchOutcome
  | toolError : FetchOutcome
  | ok : List RowItem → FetchOutcome

/-- The printed summary; `fatal` records whether `run_agent` re-raises
after its finally block. -/
structure Summary where
  total : Nat
  success : Nat
  failed : Nat
  skipped : Nat
  fatal : Bool
deriving DecidableEq, Repr

/-- `run_agent` (employee_agent.py lines 134-341).  A tool-level fetch
error is logged and becomes an empty employee list, so the run completes
normally with total 0; a connection failure propagates after the summary
is printed in the finally block. -/
def runAgent (parse : String → Option Int) (today : Int) (now : Value)
    (df : DataFrame) (fetch : FetchOutcome) : Summary :=
  match fetch with
  | .connectFail => ⟨0, 0, 0, 0, true⟩
  | .toolError => ⟨0, 0, 0, 0, false⟩
  | .ok items =>
    if items.length = 0 then ⟨0, 0, 0, 0, false⟩
    else
      let r := processAll parse today now df items ⟨0, 0, 0⟩
      ⟨items.length, r.1.success, r.1.failed, r.1.skipped, false⟩

/-- `llm_decide` (employee_agent.py lines 31-131), reindexed so that the
structural argument `k` is `max_retries - retry_count`.  The oracle is a
stream of attempt outcomes indexed by how many API calls were made so
far; the function returns the decision (none models the final raise),
the total number of API calls performed, and the total time slept.
Because the inner JSON-decode retry recursion happens inside the outer
try block, a failure propagating out of it is caught again by the outer
handler, which retries once more at the same retry count. -/
inductive Attempt where
  | ok : Decision → Attempt
  | transportFail : Attempt
  | malformed : Attempt

def llmAux (oracle : Nat → Attempt) (retryDelay : Frac) :
    Nat → Nat → Option Decision × Nat × List Frac
  | k, n =>
    match oracle n with
    | .ok d => (some d, n + 1, [])
    | .transportFail =>
      match k with
      | 0 => (none, n + 1, [])
      | k' + 1 =>
        let r := llmAux oracle retryDelay k' (n + 1)
        (r.1, r.2.1, retryDelay :: r.2.2)
    | .malformed =>
      match k with
      | 0 => (none, n + 1, [])
      | k' + 1 =>
        let r1 := llmAux oracle retryDelay k' (n + 1)
        match r1.1 with
        | some d => (some d, r1.2.1, retryDelay :: r1.2.2)
        | none =>
          let r2 := llmAux oracle retryDelay k' r1.2.1
          (r2.1, r2.2.1, retryDelay :: r1.2.2 ++ retryDelay :: r2.2.2)

/-- `llm_decide(row, retry_count)` with the configured `max_retries`:
result (none models the final raise), the index past the last API call
made (i.e. the total number of API calls when starting from 0), and the
sequence of delays slept, in order. -/
def llm_decide (oracle : Nat → Attempt) (maxRetries : Nat)
    (retryDelay : Frac) (retryCount : Nat) :
    Option Decision × Nat × List Frac :=
  llmAux oracle retryDelay (maxRetries - retryCount) 0

/-- The four audit columns written unconditionally by `setAudit`. -/
def auditCols : List String :=
  ["Is_Processed", "AI_Decision_Reason", "Confidence_Score",
   "Last_Processed_On"]

/- ----- spec-side merge policies (for comparison with the code) ----- -/

/-- Modelled from the spec, claim C1 as stated: a current value is empty
when it is null/NaN or whitespace-only after trimming. -/
def claimEmptyOrig (v : Value) : Bool :=
  v.isna || (pyStrip v.pyStr == "")

/-- Modelled from the spec, claim C1 as stated: fill when current is
empty and decision non-empty, override when both non-empty and the
trimmed values differ (case-sensitive), otherwise no change. -/
def claimStageOrig (cur : Value) (dec : String) : Option String :=
  if claimEmptyOrig cur && !(dec == "") then some dec
  else if !(claimEmptyOrig cur) && !(dec == "") &&
      !(pyStrip cur.pyStr == pyStrip dec) then some dec
  else none

/-- The amended emptiness test: null/NaN, whitespace-only after trimming,
or any Python-falsy value (numeric zero, boolean False). -/
def claimEmptyAmended (v : Value) : Bool :=
  v.isna || (pyStrip v.pyStr == "") || !v.truthy

/-- The amended per-field policy: as claim C1, but with the amended
emptiness test. -/
def claimStageAmended (cur : Value) (dec : String) : Option String :=
  if claimEmptyAmended cur && !(dec == "") then some dec
  else if !(claimEmptyAmended cur) && !(dec == "") &&
      !(pyStrip cur.pyStr == pyStrip dec) then some dec
  else none

/- ----- concrete fixtures used by witnesses and counterexamples ----- -/

/-- REQUIRED_COLUMNS from mcp_server/schema.py. -/
def requiredColumns : List String :=
  ["Emp_ID", "Name", "DOJ", "Experience_Years", "Role", "Status",
   "Department", "Designation", "Salary_Band", "Promotion_Eligibility",
   "Is_Processed", "Last_Processed_On", "Processing_Version",
   "AI_Decision_Reason", "Rule_Applied", "Confidence_Score"]

/-- A fully classified employee row, aligned with `requiredColumns`. -/
def rowFix : List Value :=
  [.num (Frac.ofInt 1), .str "Asha", .str "2020-01-01",
   .num (Frac.ofInt 1), .str "Dev", .str "Active", .str "Web",
   .str "Junior", .str "L1", .str "No", .str "No", .null, .null,
   .str "", .null, .num (Frac.ofInt 0)]

def dfFix : DataFrame := ⟨requiredColumns, [rowFix]⟩

/-- A date parser fixture: day 0 is 2020-01-01, anything else fails. -/
def parseFix : String → Option Int :=
  fun s => if s = "2020-01-01" then some 0 else none

/-- An oracle decision that matches `rowFix` exactly. -/
def decFixMatch : Decision :=
  ⟨.str "Web", .str "Junior", .str "L1", "stable", fmk 9 10⟩

/-- Current Department cell holding the number 0, everything else null. -/
def dataZero : String → Value :=
  fun c => if c = "Department" then .num (Frac.ofInt 0) else .null

/-- An oracle decision whose Department value stringifies to "0". -/
def decZero : Decision := ⟨.str "0", .str "", .str "", "", Frac.ofInt 0⟩

/-- A fetched row whose oracle call fails after its retries. -/
def itemOracleFail : RowItem := ⟨0, dfFix.dataOf 0, .error (), false⟩

/-- A fetched row for the fixture store with a matching decision. -/
def itemFixMatch : RowItem := ⟨0, dfFix.dataOf 0, .ok decFixMatch, false⟩

/-- A row with an empty Department (to be filled), aligned with
`requiredColumns`. -/
def rowBlank : List Value :=
  [.num (Frac.ofInt 2), .str "Bo", .str "2020-01-01", .null, .str "Dev",
   .str "Active", .str "", .str "Junior", .str "L1", .str "No", .str "No",
   .null, .null, .str "", .null, .num (Frac.ofInt 0)]

def dfBlank : DataFrame := ⟨requiredColumns, [rowBlank]⟩

/-- The store after the C9 witness write: Department set to "AI" plus
the audit fields. -/
def df9 : DataFrame :=
  setAudit (applyUpdates dfFix 0 [("Department", Value.str "AI")]) 0 "r"
    (fmk 1 2) (Value.str "TS")

/-- The store after the C10 witness write: a falsy Experience_Years
update plus the audit fields. -/
def df10 : DataFrame :=
  setAudit (applyUpdates dfFix 0
    [("Experience_Years", Value.num (Frac.ofInt 0))]) 0 "r" (fmk 1 2)
    Value.null

/- ===================== theorems ===================== -/

/- ----- basic list lemmas used by the store proofs ----- -/

theorem getD_set_self {α : Type} (l : List α) (i : Nat) (a d : α)
    (h : i < l.length) : (l.set i a).getD i d = a := by
  induction l generalizing i with
  | nil => simp at h
  | cons x xs ih =>
    cases i with
    | zero => simp [List.set]
    | succ n =>
      simp only [List.set, List.getD_cons_succ]
      exact ih n (by simpa using h)

theorem getD_set_ne {α : Type} (l : List α) (i j : Nat) (a d : α)
    (h : i ≠ j) : (l.set i a).getD j d = l.getD j d := by
  induction l generalizing i j with
  | nil => simp [List.set]
  | cons x xs ih =>
    cases i with
    | zero =>
      cases j with
      | zero => exact absurd rfl h
      | succ m => simp [List.set]
    | succ n =>
      cases j with
      | zero => simp [List.set]
      | succ m =>
        simp only [List.set, List.getD_cons_succ]
        exact ih n m (fun hnm => h (by rw [hnm]))

theorem getD_append_lt {α : Type} (l t : List α) (j : Nat) (d : α)
    (h : j < l.length) : (l ++ t).getD j d = l.getD j d := by
  induction l generalizing j with
  | nil => simp at h
  | cons x xs ih =>
    cases j with
    | zero => simp
    | succ n =>
      simp only [List.cons_append, List.getD_cons_succ]
      exact ih n (by simpa using h)

theorem colIdx_lt (c : String) (l : List String) (j : Nat)
    (h : colIdx c l = some j) : j < l.length := by
  induction l generalizing j with
  | nil => simp [colIdx] at h
  | cons x xs ih =>
    by_cases hx : x = c
    · simp [colIdx, hx] at h
      simp [← h]
    · simp only [colIdx, hx, if_false, Option.map_eq_some'] at h
      obtain ⟨m, hm, rfl⟩ := h
      have := ih m hm
      simpa using Nat.succ_lt_succ this

theorem colIdx_getD (c : String) (l : List String) (j : Nat) (d : String)
    (h : colIdx c l = some j) : l.getD j d = c := by
  induction l generalizing j with
  | nil => simp [colIdx] at h
  | cons x xs ih =>
    by_cases hx : x = c
    · simp [colIdx, hx] at h
      simp [← h, hx]
    · simp only [colIdx, hx, if_false, Option.map_eq_some'] at h
      obtain ⟨m, hm, rfl⟩ := h
      simpa using ih m hm

theorem colIdx_inj {c c' : String} {l : List String} {j : Nat}
    (h : colIdx c l = some j) (h' : colIdx c' l = some j) : c = c' := by
  have h1 := colIdx_getD c l j "" h
  have h2 := colIdx_getD c' l j "" h'
  rw [← h1, ← h2]

theorem colIdx_append_left {c : String} {l : List String} (t : List String)
    {j : Nat} (h : colIdx c l = some j) : colIdx c (l ++ t) = some j := by
  induction l generalizing j with
  | nil => simp [colIdx] at h
  | cons x xs ih =>
    by_cases hx : x = c
    · simp [colIdx, hx] at h ⊢
      exact h
    · simp only [colIdx, hx, if_false, Option.map_eq_some'] at h
      obtain ⟨m, hm, rfl⟩ := h
      simp only [List.cons_append, colIdx, hx, if_false, List.append_eq]
      have hr := ih hm
      simp only [List.append_eq] at hr
      rw [hr]
      rfl

theorem contains_eq_colIdx_isSome (c : String) (l : List String) :
    l.contains c = (colIdx c l).isSome := by
  induction l with
  | nil => rfl
  | cons x xs ih =>
    by_cases hx : x = c
    · simp [List.contains, List.elem, colIdx, hx]
    · have hcx : ¬c = x := fun h => hx h.symm
      have hbeq : (c == x) = false := by
        simp [hcx]
      simp only [List.contains, List.elem, colIdx, hx, if_false, hbeq]
      simp only [List.contains] at ih
      rw [ih]
      cases colIdx c xs <;> rfl

/- ----- store lemmas ----- -/

theorem setCellN_columns (df : DataFrame) (i j : Nat) (v : Value) :
    (df.setCellN i j v).columns = df.columns := rfl

theorem setCellN_length (df : DataFrame) (i j : Nat) (v : Value) :
    (df.setCellN i j v).cells.length = df.cells.length := by
  simp [DataFrame.setCellN]

theorem setCellN_Wf (df : DataFrame) (i j : Nat) (v : Value) (hW : df.Wf) :
    (df.setCellN i j v).Wf := by
  intro r hr
  rcases List.mem_or_eq_of_mem_set hr with h | h
  · exact hW r h
  · subst h
    rw [List.length_set]
    by_cases hi : i < df.cells.length
    · exact hW _ (by
        rw [List.getD_eq_getElem _ _ hi]
        exact List.getElem_mem hi)
    · have : df.cells.getD i [] = [] := by
        rw [List.getD_eq_getElem?_getD, List.getElem?_eq_none (by omega)]
        rfl
      rw [this]
      rw [this] at hr
      simp [DataFrame.setCellN, List.set_eq_of_length_le (by omega : df.cells.length ≤ i)] at hr
      exact hW [] (by simpa [List.set] using hr)

theorem setByName_columns (df : DataFrame) (i : Nat) (c : String) (v : Value) :
    (df.setByName i c v).columns = df.columns := by
  unfold DataFrame.setByName
  cases df.getLoc c <;> rfl

theorem setByName_getLoc (df : DataFrame) (i : Nat) (c c' : String) (v : Value) :
    (df.setByName i c v).getLoc c' = df.getLoc c' := by
  unfold DataFrame.getLoc
  rw [setByName_columns]

theorem setByName_length (df : DataFrame) (i : Nat) (c : String) (v : Value) :
    (df.setByName i c v).cells.length = df.cells.length := by
  unfold DataFrame.setByName
  cases df.getLoc c
  · rfl
  · apply setCellN_length

theorem setByName_Wf (df : DataFrame) (i : Nat) (c : String) (v : Value)
    (hW : df.Wf) : (df.setByName i c v).Wf := by
  unfold DataFrame.setByName
  cases hj : df.getLoc c with
  | none => exact hW
  | some j => exact setCellN_Wf df i j v hW

theorem cells_setByName_row_ne (df : DataFrame) (i i' : Nat) (c : String)
    (v : Value) (h : i' ≠ i) :
    (df.setByName i c v).cells.getD i' [] = df.cells.getD i' [] := by
  unfold DataFrame.setByName
  cases df.getLoc c
  · rfl
  · exact getD_set_ne _ i i' _ _ (fun hh => h hh.symm)

theorem dataOf_setByName_row_ne (df : DataFrame) (i i' : Nat) (c c' : String)
    (v : Value) (h : i' ≠ i) :
    (df.setByName i c v).dataOf i' c' = df.dataOf i' c' := by
  unfold DataFrame.dataOf
  rw [setByName_getLoc]
  cases df.getLoc c'
  · rfl
  · rw [cells_setByName_row_ne df i i' c v h]

theorem dataOf_setByName_col_ne (df : DataFrame) (i i' : Nat) (c c' : String)
    (v : Value) (h : c' ≠ c) :
    (df.setByName i c v).dataOf i' c' = df.dataOf i' c' := by
  by_cases hrow : i' = i
  · subst hrow
    unfold DataFrame.setByName
    cases hj : df.getLoc c with
    | none => rfl
    | some j =>
      unfold DataFrame.dataOf
      cases hj' : df.getLoc c' with
      | none =>
        have : (df.setCellN i' j v).getLoc c' = none := hj'
        rw [this]
      | some j' =>
        have : (df.setCellN i' j v).getLoc c' = some j' := hj'
        rw [this]
        have hjj : j' ≠ j := by
          intro he
          subst he
          exact h (colIdx_inj hj' hj)
        show ((df.cells.set i' ((df.cells.getD i' []).set j v)).getD i' []).getD j' .null
          = (df.cells.getD i' []).getD j' .null
        by_cases hi : i' < df.cells.length
        · rw [getD_set_self _ _ _ _ hi]
          exact getD_set_ne _ j j' _ _ (fun hh => hjj hh.symm)
        · rw [List.set_eq_of_length_le (by omega)]
  · exact dataOf_setByName_row_ne df i i' c c' v hrow

theorem dataOf_setByName_self (df : DataFrame) (i : Nat) (c : String)
    (v : Value) (hW : df.Wf) (hi : i < df.cells.length)
    (hc : df.columns.contains c = true) :
    (df.setByName i c v).dataOf i c = v := by
  have hs : (df.getLoc c).isSome = true := by
    unfold DataFrame.getLoc
    rw [← contains_eq_colIdx_isSome]
    exact hc
  obtain ⟨j, hj⟩ := Option.isSome_iff_exists.mp hs
  unfold DataFrame.setByName
  rw [hj]
  unfold DataFrame.dataOf
  have : (df.setCellN i j v).getLoc c = some j := hj
  rw [this]
  show ((df.cells.set i ((df.cells.getD i []).set j v)).getD i []).getD j .null = v
  rw [getD_set_self _ _ _ _ hi]
  apply getD_set_self
  have hrow : (df.cells.getD i []).length = df.columns.length := by
    apply hW
    rw [List.getD_eq_getElem _ _ hi]
    exact List.getElem_mem hi
  rw [hrow]
  exact colIdx_lt c df.columns j hj

theorem applyUpdates_columns (u : List (String × Value)) :
    ∀ (df : DataFrame) (i : Nat), (applyUpdates df i u).columns = df.columns := by
  induction u with
  | nil => intro df i; rfl
  | cons p rest ih =>
    intro df i
    obtain ⟨c, v⟩ := p
    simp only [applyUpdates]
    rw [ih]
    by_cases ht : v.truthy = true
    · rw [if_pos ht]
      by_cases hc : df.columns.contains c = true
      · rw [if_pos hc, setByName_columns]
      · rw [if_neg hc]
    · rw [if_neg ht]

theorem applyUpdates_length (u : List (String × Value)) :
    ∀ (df : DataFrame) (i : Nat),
      (applyUpdates df i u).cells.length = df.cells.length := by
  induction u with
  | nil => intro df i; rfl
  | cons p rest ih =>
    intro df i
    obtain ⟨c, v⟩ := p
    simp only [applyUpdates]
    rw [ih]
    by_cases ht : v.truthy = true
    · rw [if_pos ht]
      by_cases hc : df.columns.contains c = true
      · rw [if_pos hc, setByName_length]
      · rw [if_neg hc]
    · rw [if_neg ht]

theorem applyUpdates_Wf (u : List (String × Value)) :
    ∀ (df : DataFrame) (i : Nat), df.Wf → (applyUpdates df i u).Wf := by
  induction u with
  | nil => intro df i hW; exact hW
  | cons p rest ih =>
    intro df i hW
    obtain ⟨c, v⟩ := p
    simp only [applyUpdates]
    apply ih
    by_cases ht : v.truthy = true
    · rw [if_pos ht]
      by_cases hc : df.columns.contains c = true
      · rw [if_pos hc]
        exact setByName_Wf df i c v hW
      · rw [if_neg hc]
        exact hW
    · rw [if_neg ht]
      exact hW

theorem applyUpdates_row_frame (u : List (String × Value)) :
    ∀ (df : DataFrame) (i i' : Nat), i' ≠ i →
      (applyUpdates df i u).cells.getD i' [] = df.cells.getD i' [] := by
  induction u with
  | nil => intro df i i' h; rfl
  | cons p rest ih =>
    intro df i i' h
    obtain ⟨c, v⟩ := p
    simp only [applyUpdates]
    rw [ih _ _ _ h]
    by_cases ht : v.truthy = true
    · rw [if_pos ht]
      by_cases hc : df.columns.contains c = true
      · rw [if_pos hc, cells_setByName_row_ne df i i' c v h]
      · rw [if_neg hc]
    · rw [if_neg ht]

theorem dataOf_applyUpdates_not_key (u : List (String × Value)) :
    ∀ (df : DataFrame) (i i' : Nat) (c' : String),
      c' ∉ u.map Prod.fst →
      (applyUpdates df i u).dataOf i' c' = df.dataOf i' c' := by
  induction u with
  | nil => intro df i i' c' h; rfl
  | cons p rest ih =>
    intro df i i' c' h
    obtain ⟨c, v⟩ := p
    simp only [List.map_cons, List.mem_cons, not_or] at h
    simp only [applyUpdates]
    rw [ih _ _ _ _ h.2]
    by_cases ht : v.truthy = true
    · rw [if_pos ht]
      by_cases hc : df.columns.contains c = true
      · rw [if_pos hc, dataOf_setByName_col_ne df i i' c c' v h.1]
      · rw [if_neg hc]
    · rw [if_neg ht]

theorem dataOf_applyUpdates_key (u : List (String × Value)) :
    ∀ (df : DataFrame) (i : Nat) (c : String) (v : Value),
      (u.map Prod.fst).Nodup → (c, v) ∈ u → v.truthy = true →
      df.columns.contains c = true → df.Wf → i < df.cells.length →
      (applyUpdates df i u).dataOf i c = v := by
  induction u with
  | nil => intro df i c v _ hmem; simp at hmem
  | cons p rest ih =>
    intro df i c v hNd hmem ht hc hW hi
    obtain ⟨c0, v0⟩ := p
    simp only [List.map_cons, List.nodup_cons] at hNd
    rcases List.mem_cons.mp hmem with heq | hrest
    · obtain ⟨h1, h2⟩ := Prod.mk.inj heq
      subst h1
      subst h2
      simp only [applyUpdates]
      rw [if_pos ht, if_pos hc]
      rw [dataOf_applyUpdates_not_key rest _ _ _ _ hNd.1]
      exact dataOf_setByName_self df i c v hW hi hc
    · have hne : c0 ≠ c := by
        intro he
        subst he
        exact hNd.1 (List.mem_map.mpr ⟨(c0, v), hrest, rfl⟩)
      simp only [applyUpdates]
      have step : ∀ dfx : DataFrame, dfx.columns = df.columns → dfx.Wf →
          dfx.cells.length = df.cells.length →
          (applyUpdates dfx i rest).dataOf i c = v := by
        intro dfx hcols hWx hlen
        exact ih dfx i c v hNd.2 hrest ht (by rw [hcols]; exact hc) hWx
          (by rw [hlen]; exact hi)
      by_cases htr : v0.truthy = true
      · rw [if_pos htr]
        by_cases hc0 : df.columns.contains c0 = true
        · rw [if_pos hc0]
          exact step _ (setByName_columns ..) (setByName_Wf _ _ _ _ hW)
            (setByName_length ..)
        · rw [if_neg hc0]
          exact step df rfl hW rfl
      · rw [if_neg htr]
        exact step df rfl hW rfl

theorem setAudit_columns (df : DataFrame) (i : Nat) (r : String) (cf : Frac)
    (now : Value) : (setAudit df i r cf now).columns = df.columns := by
  unfold setAudit
  rw [setByName_columns, setByName_columns, setByName_columns,
    setByName_columns]

theorem setAudit_length (df : DataFrame) (i : Nat) (r : String) (cf : Frac)
    (now : Value) : (setAudit df i r cf now).cells.length = df.cells.length := by
  unfold setAudit
  rw [setByName_length, setByName_length, setByName_length, setByName_length]

theorem setAudit_row_frame (df : DataFrame) (i i' : Nat) (r : String)
    (cf : Frac) (now : Value) (h : i' ≠ i) :
    (setAudit df i r cf now).cells.getD i' [] = df.cells.getD i' [] := by
  unfold setAudit
  rw [cells_setByName_row_ne _ _ _ _ _ h, cells_setByName_row_ne _ _ _ _ _ h,
    cells_setByName_row_ne _ _ _ _ _ h, cells_setByName_row_ne _ _ _ _ _ h]

theorem dataOf_setAudit_other (df : DataFrame) (i i' : Nat) (r : String)
    (cf : Frac) (now : Value) (c : String) (hc : c ∉ auditCols) :
    (setAudit df i r cf now).dataOf i' c = df.dataOf i' c := by
  simp only [auditCols, List.mem_cons, not_or] at hc
  unfold setAudit
  rw [dataOf_setByName_col_ne _ _ _ _ _ _ hc.2.2.2.1,
    dataOf_setByName_col_ne _ _ _ _ _ _ hc.2.2.1,
    dataOf_setByName_col_ne _ _ _ _ _ _ hc.2.1,
    dataOf_setByName_col_ne _ _ _ _ _ _ hc.1]

theorem dataOf_setAudit_fields (df : DataFrame) (i : Nat) (r : String)
    (cf : Frac) (now : Value) (hW : df.Wf) (hi : i < df.cells.length)
    (h1 : df.columns.contains "Is_Processed" = true)
    (h2 : df.columns.contains "AI_Decision_Reason" = true)
    (h3 : df.columns.contains "Confidence_Score" = true)
    (h4 : df.columns.contains "Last_Processed_On" = true) :
    (setAudit df i r cf now).dataOf i "Is_Processed" = .str "Yes" ∧
    (setAudit df i r cf now).dataOf i "AI_Decision_Reason" = .str r ∧
    (setAudit df i r cf now).dataOf i "Confidence_Score" = .num cf ∧
    (setAudit df i r cf now).dataOf i "Last_Processed_On" = now := by
  unfold setAudit
  set d1 := df.setByName i "Is_Processed" (.str "Yes") with hd1
  set d2 := d1.setByName i "AI_Decision_Reason" (.str r) with hd2
  set d3 := d2.setByName i "Confidence_Score" (.num cf) with hd3
  have hW1 : d1.Wf := setByName_Wf _ _ _ _ hW
  have hW2 : d2.Wf := setByName_Wf _ _ _ _ hW1
  have hW3 : d3.Wf := setByName_Wf _ _ _ _ hW2
  have hl1 : d1.cells.length = df.cells.length := setByName_length ..
  have hl2 : d2.cells.length = df.cells.length := by
    rw [hd2, setByName_length, hl1]
  have hl3 : d3.cells.length = df.cells.length := by
    rw [hd3, setByName_length, hl2]
  have hc1 : d1.columns = df.columns := setByName_columns ..
  have hc2 : d2.columns = df.columns := by
    rw [hd2, setByName_columns, hc1]
  have hc3 : d3.columns = df.columns := by
    rw [hd3, setByName_columns, hc2]
  refine ⟨?_, ?_, ?_, ?_⟩
  · rw [dataOf_setByName_col_ne _ _ _ _ _ _ (by decide),
      dataOf_setByName_col_ne _ _ _ _ _ _ (by decide),
      dataOf_setByName_col_ne _ _ _ _ _ _ (by decide)]
    exact dataOf_setByName_self df i _ _ hW hi h1
  · rw [dataOf_setByName_col_ne _ _ _ _ _ _ (by decide),
      dataOf_setByName_col_ne _ _ _ _ _ _ (by decide)]
    exact dataOf_setByName_self d1 i _ _ hW1 (by rw [hl1]; exact hi)
      (by rw [hc1]; exact h2)
  · rw [dataOf_setByName_col_ne _ _ _ _ _ _ (by decide)]
    exact dataOf_setByName_self d2 i _ _ hW2 (by rw [hl2]; exact hi)
      (by rw [hc2]; exact h3)
  · exact dataOf_setByName_self d3 i _ _ hW3 (by rw [hl3]; exact hi)
      (by rw [hc3]; exact h4)

theorem ensureAudit_eq_self (df : DataFrame)
    (h1 : df.columns.contains "Is_Processed" = true)
    (h2 : df.columns.contains "AI_Decision_Reason" = true)
    (h3 : df.columns.contains "Confidence_Score" = true)
    (h4 : df.columns.contains "Last_Processed_On" = true)
    (h5 : df.columns.contains "Processing_Version" = true)
    (h6 : df.columns.contains "Rule_Applied" = true) :
    ensureAuditColumns df = df := by
  unfold ensureAuditColumns DataFrame.ensureColumn
  rw [if_pos h1, if_pos h2, if_pos h3, if_pos h4, if_pos h5, if_pos h6]

theorem update_ok_iff (df : DataFrame) (rid : Int) (u : List (String × Value))
    (r : String) (cf : Frac) (now : Value) (df' : DataFrame) :
    update_employee_row df rid u r cf now = .ok df' ↔
      ¬(rid < 0 ∨ (df.cells.length : Int) ≤ rid) ∧ validateUpdates u = none ∧
      df' = setAudit (applyUpdates (ensureAuditColumns df) rid.toNat u)
        rid.toNat r cf now := by
  unfold update_employee_row
  by_cases hb : rid < 0 ∨ (df.cells.length : Int) ≤ rid
  · rw [if_pos hb]
    simp [hb]
  · rw [if_neg hb]
    cases hv : validateUpdates u with
    | some p =>
      obtain ⟨c, v⟩ := p
      simp [hv]
    | none =>
      simp [hv, hb, eq_comm]

theorem update_validation_error (df : DataFrame) (rid : Int)
    (u : List (String × Value)) (r : String) (cf : Frac) (now : Value)
    (c : String) (v : Value) (hb : ¬(rid < 0 ∨ (df.cells.length : Int) ≤ rid))
    (hv : validateUpdates u = some (c, v)) :
    update_employee_row df rid u r cf now = .error (.validationError c v) := by
  unfold update_employee_row
  rw [if_neg hb, hv]

/- ----- trimming lemmas ----- -/

theorem head?_dropWhile {α : Type} (p : α → Bool) (l : List α) (a : α)
    (h : (l.dropWhile p).head? = some a) : p a = false := by
  induction l with
  | nil => simp at h
  | cons x xs ih =>
    by_cases hx : p x = true
    · rw [List.dropWhile_cons, if_pos hx] at h
      exact ih h
    · rw [List.dropWhile_cons, if_neg hx] at h
      simp at h
      subst h
      cases hpx : p x
      · rfl
      · exact absurd hpx hx

theorem dropWhile_eq_self_of_head? {α : Type} (p : α → Bool) (l : List α)
    (h : ∀ a, l.head? = some a → p a = false) : l.dropWhile p = l := by
  cases l with
  | nil => rfl
  | cons x xs =>
    rw [List.dropWhile_cons, if_neg]
    rw [h x rfl]
    simp

theorem getLast?_dropWhile {α : Type} (p : α → Bool) (l : List α) :
    l.dropWhile p = [] ∨ (l.dropWhile p).getLast? = l.getLast? := by
  induction l with
  | nil => exact Or.inl rfl
  | cons x xs ih =>
    by_cases hx : p x = true
    · rw [List.dropWhile_cons, if_pos hx]
      by_cases hd : xs.dropWhile p = []
      · exact Or.inl hd
      · right
        rcases ih with h | h
        · exact absurd h hd
        · rw [h]
          cases xs with
          | nil => simp [List.dropWhile] at hd
          | cons y ys => rw [List.getLast?_cons_cons]
    · rw [List.dropWhile_cons, if_neg hx]
      exact Or.inr rfl

theorem trimChars_idem (l : List Char) :
    trimChars (trimChars l) = trimChars l := by
  unfold trimChars
  set A := l.dropWhile isPyWS with hA
  set B := A.reverse.dropWhile isPyWS with hB
  by_cases hBe : B = []
  · simp [hBe]
  · have step1 : B.reverse.dropWhile isPyWS = B.reverse := by
      apply dropWhile_eq_self_of_head?
      intro a ha
      rw [List.head?_reverse] at ha
      rcases getLast?_dropWhile isPyWS A.reverse with h | h
      · rw [← hB] at h
        exact absurd h hBe
      · rw [← hB] at h
        rw [h, List.getLast?_reverse] at ha
        exact head?_dropWhile isPyWS l a (by rw [← hA]; exact ha)
    have step2 : B.dropWhile isPyWS = B := by
      apply dropWhile_eq_self_of_head?
      intro a ha
      exact head?_dropWhile isPyWS A.reverse a (by rw [← hB]; exact ha)
    rw [step1, List.reverse_reverse, step2]

theorem pyStrip_idem (s : String) : pyStrip (pyStrip s) = pyStrip s := by
  unfold pyStrip
  exact congrArg String.mk (trimChars_idem s.data)

/- ----- reconciliation lemmas ----- -/

theorem lookup_some_mem {β : Type} (l : List (String × β)) (c : String)
    (b : β) (h : l.lookup c = some b) : (c, b) ∈ l := by
  induction l with
  | nil => simp at h
  | cons p rest ih =>
    obtain ⟨k, v⟩ := p
    by_cases hk : (c == k) = true
    · rw [List.lookup_cons, hk] at h
      simp only [] at h
      injection h with h
      subst h
      have hck : c = k := eq_of_beq hk
      subst hck
      exact List.mem_cons_self ..
    · have hkf : (c == k) = false := by
        cases hck : c == k
        · rfl
        · exact absurd hck hk
      rw [List.lookup_cons, hkf] at h
      exact List.mem_cons_of_mem _ (ih h)

theorem buildUpdates_lookup_exp (p : String → Option Int) (t : Int)
    (data : String → Value) (d : Decision) :
    (buildUpdates p t data d).1.lookup "Experience_Years" =
      (calcExperience p t (data "DOJ")).map Value.num := by
  rcases h1 : calcExperience p t (data "DOJ") with _ | e <;>
    rcases h2 : stageField (data "Department") (decisionField d.department)
      with _ | w2 <;>
    rcases h3 : stageField (data "Designation") (decisionField d.designation)
      with _ | w3 <;>
    rcases h4 : stageField (data "Salary_Band") (decisionField d.salaryBand)
      with _ | w4 <;>
    simp [buildUpdates, h1, h2, h3, h4, List.lookup]

theorem buildUpdates_lookup_dept (p : String → Option Int) (t : Int)
    (data : String → Value) (d : Decision) :
    (buildUpdates p t data d).1.lookup "Department" =
      (stageField (data "Department") (decisionField d.department)).map
        Value.str := by
  rcases h1 : calcExperience p t (data "DOJ") with _ | e <;>
    rcases h2 : stageField (data "Department") (decisionField d.department)
      with _ | w2 <;>
    rcases h3 : stageField (data "Designation") (decisionField d.designation)
      with _ | w3 <;>
    rcases h4 : stageField (data "Salary_Band") (decisionField d.salaryBand)
      with _ | w4 <;>
    simp [buildUpdates, h1, h2, h3, h4, List.lookup]

theorem buildUpdates_lookup_desig (p : String → Option Int) (t : Int)
    (data : String → Value) (d : Decision) :
    (buildUpdates p t data d).1.lookup "Designation" =
      (stageField (data "Designation") (decisionField d.designation)).map
        Value.str := by
  rcases h1 : calcExperience p t (data "DOJ") with _ | e <;>
    rcases h2 : stageField (data "Department") (decisionField d.department)
      with _ | w2 <;>
    rcases h3 : stageField (data "Designation") (decisionField d.designation)
      with _ | w3 <;>
    rcases h4 : stageField (data "Salary_Band") (decisionField d.salaryBand)
      with _ | w4 <;>
    simp [buildUpdates, h1, h2, h3, h4, List.lookup]

theorem buildUpdates_lookup_band (p : String → Option Int) (t : Int)
    (data : String → Value) (d : Decision) :
    (buildUpdates p t data d).1.lookup "Salary_Band" =
      (stageField (data "Salary_Band") (decisionField d.salaryBand)).map
        Value.str := by
  rcases h1 : calcExperience p t (data "DOJ") with _ | e <;>
    rcases h2 : stageField (data "Department") (decisionField d.department)
      with _ | w2 <;>
    rcases h3 : stageField (data "Designation") (decisionField d.designation)
      with _ | w3 <;>
    rcases h4 : stageField (data "Salary_Band") (decisionField d.salaryBand)
      with _ | w4 <;>
    simp [buildUpdates, h1, h2, h3, h4, List.lookup]

theorem buildUpdates_needs (p : String → Option Int) (t : Int)
    (data : String → Value) (d : Decision) :
    (buildUpdates p t data d).2 =
      ((calcExperience p t (data "DOJ")).isSome ||
       (stageField (data "Department") (decisionField d.department)).isSome ||
       (stageField (data "Designation") (decisionField d.designation)).isSome ||
       (stageField (data "Salary_Band") (decisionField d.salaryBand)).isSome) := by
  rcases h1 : calcExperience p t (data "DOJ") with _ | e <;>
    rcases h2 : stageField (data "Department") (decisionField d.department)
      with _ | w2 <;>
    rcases h3 : stageField (data "Designation") (decisionField d.designation)
      with _ | w3 <;>
    rcases h4 : stageField (data "Salary_Band") (decisionField d.salaryBand)
      with _ | w4 <;>
    simp [buildUpdates, h1, h2, h3, h4]

theorem buildUpdates_keys_nodup (p : String → Option Int) (t : Int)
    (data : String → Value) (d : Decision) :
    ((buildUpdates p t data d).1.map Prod.fst).Nodup := by
  rcases h1 : calcExperience p t (data "DOJ") with _ | e <;>
    rcases h2 : stageField (data "Department") (decisionField d.department)
      with _ | w2 <;>
    rcases h3 : stageField (data "Designation") (decisionField d.designation)
      with _ | w3 <;>
    rcases h4 : stageField (data "Salary_Band") (decisionField d.salaryBand)
      with _ | w4 <;>
    simp [buildUpdates, h1, h2, h3, h4]

theorem buildUpdates_empty_of_not_needs (p : String → Option Int) (t : Int)
    (data : String → Value) (d : Decision)
    (h : (buildUpdates p t data d).2 = false) :
    (buildUpdates p t data d).1 = [] := by
  rcases h1 : calcExperience p t (data "DOJ") with _ | e <;>
    rcases h2 : stageField (data "Department") (decisionField d.department)
      with _ | w2 <;>
    rcases h3 : stageField (data "Designation") (decisionField d.designation)
      with _ | w3 <;>
    rcases h4 : stageField (data "Salary_Band") (decisionField d.salaryBand)
      with _ | w4 <;>
    simp [buildUpdates, h1, h2, h3, h4] at h ⊢

theorem buildUpdates_keys_sub (p : String → Option Int) (t : Int)
    (data : String → Value) (d : Decision) :
    ∀ q ∈ (buildUpdates p t data d).1, q.1 = "Experience_Years" ∨
      q.1 = "Department" ∨ q.1 = "Designation" ∨ q.1 = "Salary_Band" := by
  rcases h1 : calcExperience p t (data "DOJ") with _ | e <;>
    rcases h2 : stageField (data "Department") (decisionField d.department)
      with _ | w2 <;>
    rcases h3 : stageField (data "Designation") (decisionField d.designation)
      with _ | w3 <;>
    rcases h4 : stageField (data "Salary_Band") (decisionField d.salaryBand)
      with _ | w4 <;>
    intro q hq <;>
    simp [buildUpdates, h1, h2, h3, h4] at hq <;>
    rcases hq with hq | hq | hq | hq <;> simp_all

/- ----- executable sanity checks ----- -/

example : stageField (Value.str "Junior") "Senior" = some "Senior" := by decide
example : stageField (Value.str " Web ") "Web" = none := by decide
example : stageField Value.null "Web" = some "Web" := by decide
example : stageField (Value.str "") "" = none := by decide
example : calcExperience (fun s => if s = "2017-01-01" then some 0 else none)
    2557 (Value.str "2017-01-01") = some (Frac.ofInt 7) := by decide
example : calcExperience (fun _ => some 0) 365 (Value.str "x") =
    some (Frac.ofInt 1) := by decide
example : calcExperience (fun _ => some 0) 0 (Value.str "x") =
    some (Frac.ofInt 0) := by decide
example : calcExperience (fun _ => some 0) 0 (Value.str "") = none := by decide
example : calcExperience (fun _ => none) 0 (Value.str "x") = none := by decide

/- ----- merge-policy equivalence ----- -/

theorem isEmptyCell_eq_amended (v : Value) :
    isEmptyCell v = claimEmptyAmended v := by
  unfold isEmptyCell claimEmptyAmended
  have h : ∀ a b c : Bool, (!a || b || c) = (b || c || !a) := by decide
  exact h v.truthy v.isna (pyStrip v.pyStr == "")

theorem truthy_of_not_amendedEmpty (v : Value)
    (h : claimEmptyAmended v = false) : v.truthy = true := by
  unfold claimEmptyAmended at h
  cases ht : v.truthy
  · rw [ht] at h
    simp at h
  · rfl

theorem stageField_eq_claimAmended (cur : Value) (dec : String) :
    stageField cur dec = claimStageAmended cur dec := by
  unfold stageField claimStageAmended
  rw [isEmptyCell_eq_amended]
  by_cases hd : (dec == "") = true
  · rw [hd]
    simp
  · have hdf : (dec == "") = false := by
      cases h : dec == ""
      · rfl
      · exact absurd h hd
    rw [hdf]
    by_cases he : claimEmptyAmended cur = true
    · rw [he]
      simp
    · have hef : claimEmptyAmended cur = false := by
        cases h : claimEmptyAmended cur
        · rfl
        · exact absurd h he
      rw [hef, truthy_of_not_amendedEmpty cur hef]
      simp

theorem lookup_of_mem_nodup {β : Type} (l : List (String × β)) (c : String)
    (b : β) (hNd : (l.map Prod.fst).Nodup) (h : (c, b) ∈ l) :
    l.lookup c = some b := by
  induction l with
  | nil => simp at h
  | cons p rest ih =>
    obtain ⟨k, v⟩ := p
    simp only [List.map_cons, List.nodup_cons] at hNd
    rcases List.mem_cons.mp h with heq | hrest
    · obtain ⟨h1, h2⟩ := Prod.mk.inj heq
      subst h1
      subst h2
      rw [List.lookup_cons]
      have : (c == c) = true := by simp
      rw [this]
    · have hck : (c == k) = false := by
        cases hck : c == k
        · rfl
        · exfalso
          have : c = k := eq_of_beq hck
          subst this
          exact hNd.1 (List.mem_map.mpr ⟨(c, b), hrest, rfl⟩)
      rw [List.lookup_cons, hck]
      exact ih hNd.2 hrest

/- ----- claim C1 ----- -/

/-- C1, counterexample to the claim as stated: a Department cell holding
numeric 0 with a decision value that stringifies to "0".  By the claim's
emptiness test the current value is non-empty and equal to the decision
after trimming, so nothing may be staged; the code treats the falsy 0 as
empty and stages "0" through its fill branch. -/
theorem claim1_counterexample :
    claimStageOrig (Value.num (Frac.ofInt 0)) "0" = none ∧
    dataZero "Department" = Value.num (Frac.ofInt 0) ∧
    decisionField decZero.department = "0" ∧
    (buildUpdates (fun _ => none) 0 dataZero decZero).1 =
      [("Department", Value.str "0")] := by decide

/-- C1, amended: per classification field, applied independently, the
staged value is exactly what the claim's fill/override policy
prescribes once the emptiness test also counts Python-falsy current
values (numeric zero, boolean False) as empty; and needs_write is set
exactly when the derived experience or at least one classification
field is staged (hence whenever any field is staged). -/
theorem claim1_merge_policy (p : String → Option Int) (t : Int)
    (data : String → Value) (d : Decision) :
    (buildUpdates p t data d).1.lookup "Department" =
      (claimStageAmended (data "Department")
        (decisionField d.department)).map Value.str ∧
    (buildUpdates p t data d).1.lookup "Designation" =
      (claimStageAmended (data "Designation")
        (decisionField d.designation)).map Value.str ∧
    (buildUpdates p t data d).1.lookup "Salary_Band" =
      (claimStageAmended (data "Salary_Band")
        (decisionField d.salaryBand)).map Value.str ∧
    (buildUpdates p t data d).2 =
      ((calcExperience p t (data "DOJ")).isSome ||
       (claimStageAmended (data "Department")
         (decisionField d.department)).isSome ||
       (claimStageAmended (data "Designation")
         (decisionField d.designation)).isSome ||
       (claimStageAmended (data "Salary_Band")
         (decisionField d.salaryBand)).isSome) := by
  refine ⟨?_, ?_, ?_, ?_⟩
  · rw [← stageField_eq_claimAmended]
    exact buildUpdates_lookup_dept p t data d
  · rw [← stageField_eq_claimAmended]
    exact buildUpdates_lookup_desig p t data d
  · rw [← stageField_eq_claimAmended]
    exact buildUpdates_lookup_band p t data d
  · rw [← stageField_eq_claimAmended, ← stageField_eq_claimAmended,
      ← stageField_eq_claimAmended]
    exact buildUpdates_needs p t data d

/- ----- claim C2 ----- -/

/-- C2 (confirmed): the derived experience equals
round((today - join) / 365.25, 1) exactly when the join date is a
truthy string the parser accepts; it is null when the join date is
missing or unparseable, in which case Experience_Years is not staged at
all (the stored value is kept); and whenever a non-null experience is
computed it is staged and needs_write is set, with no reference to the
currently stored Experience_Years (the statement holds for every data
function, independent of its "Experience_Years" entry). -/
theorem claim2_experience (p : String → Option Int) (t : Int)
    (data : String → Value) (d : Decision) :
    (buildUpdates p t data d).1.lookup "Experience_Years" =
      (calcExperience p t (data "DOJ")).map Value.num ∧
    (∀ e, calcExperience p t (data "DOJ") = some e →
      ("Experience_Years", Value.num e) ∈ (buildUpdates p t data d).1 ∧
      (buildUpdates p t data d).2 = true) ∧
    (∀ s dd, data "DOJ" = Value.str s → s ≠ "" → p s = some dd →
      calcExperience p t (data "DOJ") =
        some (round1 ((Frac.ofInt (t - dd)).div (fmk 1461 4)))) ∧
    (calcExperience p t (data "DOJ") = none ↔
      ¬∃ s dd, data "DOJ" = Value.str s ∧ s ≠ "" ∧ p s = some dd) ∧
    (calcExperience p t (data "DOJ") = none →
      ∀ w, ("Experience_Years", w) ∉ (buildUpdates p t data d).1) := by
  refine ⟨buildUpdates_lookup_exp p t data d, ?_, ?_, ?_, ?_⟩
  · intro e he
    constructor
    · apply lookup_some_mem
      rw [buildUpdates_lookup_exp, he]
      rfl
    · rw [buildUpdates_needs, he]
      rfl
  · intro s dd hdoj hs hp
    have hbs : (s == "") = false := by
      cases h : s == ""
      · rfl
      · exact absurd (eq_of_beq h) hs
    unfold calcExperience
    rw [hdoj]
    simp [Value.truthy, hbs, hp]
  · constructor
    · intro hnone hex
      obtain ⟨s, dd, hdoj, hs, hp⟩ := hex
      have hbs : (s == "") = false := by
        cases h : s == ""
        · rfl
        · exact absurd (eq_of_beq h) hs
      unfold calcExperience at hnone
      rw [hdoj] at hnone
      simp [Value.truthy, hbs, hp] at hnone
    · intro hnex
      rcases hdoj : data "DOJ" with _ | s | q | b
      · rfl
      · by_cases hs : s = ""
        · subst hs
          unfold calcExperience
          simp [Value.truthy]
        · cases hp : p s with
          | some dd => exact absurd ⟨s, dd, hdoj, hs, hp⟩ hnex
          | none =>
            have hbs : (s == "") = false := by
              cases h : s == ""
              · rfl
              · exact absurd (eq_of_beq h) hs
            unfold calcExperience
            simp [Value.truthy, hbs, hp]
      · unfold calcExperience
        cases hq : (q.num == 0) <;> simp [Value.truthy, hq]
      · unfold calcExperience
        cases b <;> simp [Value.truthy]
  · intro hnone w hmem
    have hl := lookup_of_mem_nodup _ _ _ (buildUpdates_keys_nodup p t data d)
      hmem
    rw [buildUpdates_lookup_exp, hnone] at hl
    simp at hl

/-- C2 witness: a parseable join date 365 days before "today" yields
exactly 1.0 years, which is staged and marks the row for writing. -/
theorem claim2_witness :
    calcExperience parseFix 365 (dfFix.dataOf 0 "DOJ") = some (Frac.ofInt 1) ∧
    (("Experience_Years", Value.num (Frac.ofInt 1)) ∈
        (buildUpdates parseFix 365 (dfFix.dataOf 0) decFixMatch).1 ∧
      (buildUpdates parseFix 365 (dfFix.dataOf 0) decFixMatch).2 = true) :=
  ⟨by decide, (claim2_experience parseFix 365 (dfFix.dataOf 0)
    decFixMatch).2.1 (Frac.ofInt 1) (by decide)⟩

/- ----- claim C3 ----- -/

theorem decisionField_stripped (w : Value) :
    pyStrip (decisionField w) = decisionField w :=
  pyStrip_idem w.pyStr

theorem stageField_none_of_match (cur : Value) (w : Value)
    (hne : isEmptyCell cur = false)
    (heq : pyStrip cur.pyStr = decisionField w) :
    stageField cur (decisionField w) = none := by
  unfold stageField
  rw [hne]
  simp only [Bool.false_and, if_false]
  rw [heq, decisionField_stripped]
  simp

/-- C3, amended: for a record whose classification fields are all
non-empty and trim-equal to the oracle decision, and whose computed
experience is null (when it is non-null the code always stages it, so
needs_write is true even for an unchanged value — see the
counterexample): nothing is staged, needs_write is false, the row is
skipped with the skipped counter bumped, and the store is untouched. -/
theorem claim3_stable_row_skipped (p : String → Option Int) (t : Int)
    (now : Value) (df : DataFrame) (data : String → Value) (d : Decision)
    (rid : Int) (s : Stats)
    (h1e : isEmptyCell (data "Department") = false)
    (h1m : pyStrip (data "Department").pyStr = decisionField d.department)
    (h2e : isEmptyCell (data "Designation") = false)
    (h2m : pyStrip (data "Designation").pyStr = decisionField d.designation)
    (h3e : isEmptyCell (data "Salary_Band") = false)
    (h3m : pyStrip (data "Salary_Band").pyStr = decisionField d.salaryBand)
    (hexp : calcExperience p t (data "DOJ") = none) :
    buildUpdates p t data d = ([], false) ∧
    processRow p t now df ⟨rid, data, .ok d, false⟩ = (.skipped, df) ∧
    applyResult s .skipped = { s with skipped := s.skipped + 1 } := by
  have hn : (buildUpdates p t data d).2 = false := by
    rw [buildUpdates_needs, hexp, stageField_none_of_match _ _ h1e h1m,
      stageField_none_of_match _ _ h2e h2m,
      stageField_none_of_match _ _ h3e h3m]
    rfl
  have hu : (buildUpdates p t data d).1 = [] :=
    buildUpdates_empty_of_not_needs p t data d hn
  refine ⟨?_, ?_, rfl⟩
  · rw [Prod.ext_iff]
    exact ⟨hu, hn⟩
  · simp [processRow, hu, hn]

/-- C3, counterexample to the claim as stated: a row whose
classification already matches the decision and whose computed
experience (1.0 years) equals the stored Experience_Years value.  The
claim requires needs_write to be false, the row to be skipped and no
store write to happen; the code always stages a computable experience,
so needs_write is true and the row is written (.success, not .skipped). -/
theorem claim3_counterexample :
    pyStrip ((dfFix.dataOf 0) "Department").pyStr =
      decisionField decFixMatch.department ∧
    pyStrip ((dfFix.dataOf 0) "Designation").pyStr =
      decisionField decFixMatch.designation ∧
    pyStrip ((dfFix.dataOf 0) "Salary_Band").pyStr =
      decisionField decFixMatch.salaryBand ∧
    calcExperience parseFix 365 ((dfFix.dataOf 0) "DOJ") =
      some (Frac.ofInt 1) ∧
    (dfFix.dataOf 0) "Experience_Years" = Value.num (Frac.ofInt 1) ∧
    (buildUpdates parseFix 365 (dfFix.dataOf 0) decFixMatch).2 = true ∧
    (processRow parseFix 365 (Value.str "2021-01-01T00:00:00") dfFix
      ⟨0, dfFix.dataOf 0, .ok decFixMatch, false⟩).1 = .success := by decide

/-- C3 witness: the same stable row with an unparseable join date is
skipped and the store is unchanged. -/
theorem claim3_witness :
    calcExperience (fun _ => none) 365 ((dfFix.dataOf 0) "DOJ") = none ∧
    processRow (fun _ => none) 365 Value.null dfFix
      ⟨0, dfFix.dataOf 0, .ok decFixMatch, false⟩ = (.skipped, dfFix) :=
  ⟨by decide, (claim3_stable_row_skipped (fun _ => none) 365 Value.null dfFix
    (dfFix.dataOf 0) decFixMatch 0 ⟨0, 0, 0⟩ (by decide) (by decide)
    (by decide) (by decide) (by decide) (by decide) (by decide)).2.1⟩

/- ----- claim C4 ----- -/

/-- C4 (confirmed): a row update whose update set stages a truthy,
non-whitespace value for a classification dropdown column outside its
fixed enumeration fails with a validation error raised before any value
is applied; through the agent's write wrapper the store comes back
unchanged and the row result is .failed, which bumps the failed
counter. -/
theorem claim4_validation_gate (df : DataFrame) (rid : Int)
    (u : List (String × Value)) (r : String) (cf : Frac) (now : Value)
    (c : String) (v : Value) (s : Stats)
    (hb : ¬(rid < 0 ∨ (df.cells.length : Int) ≤ rid))
    (hmem : (c, v) ∈ u)
    (hcol : c = "Department" ∨ c = "Designation" ∨ c = "Salary_Band")
    (ht : v.truthy = true) (hws : (pyStrip v.pyStr == "") = false)
    (hval : valInList v (DROPDOWNS c) = false) :
    (∃ c2 v2, update_employee_row df rid u r cf now =
      .error (.validationError c2 v2)) ∧
    attemptWrite df rid u r cf now = (.failed, df) ∧
    applyResult s .failed = { s with failed := s.failed + 1 } := by
  have hdd : dropdownCols.contains c = true := by
    rcases hcol with h | h | h <;> subst h <;> decide
  have hpred : (dropdownCols.contains c && v.truthy &&
      !(pyStrip v.pyStr == "") && !(valInList v (DROPDOWNS c))) = true := by
    rw [hdd, ht, hws, hval]
    rfl
  have hsome : (validateUpdates u).isSome = true := by
    unfold validateUpdates
    rw [List.find?_isSome]
    exact ⟨(c, v), hmem, hpred⟩
  obtain ⟨p2, hp2⟩ := Option.isSome_iff_exists.mp hsome
  obtain ⟨c2, v2⟩ := p2
  have herr : update_employee_row df rid u r cf now =
      .error (.validationError c2 v2) :=
    update_validation_error df rid u r cf now c2 v2 hb hp2
  refine ⟨⟨c2, v2, herr⟩, ?_, rfl⟩
  unfold attemptWrite
  rw [herr]

/-- C4 witness: staging Department = "Marketing" on the fixture store
fails validation and leaves the store unchanged. -/
theorem claim4_witness :
    attemptWrite dfFix 0 [("Department", Value.str "Marketing")] "x"
      (Frac.ofInt 0) Value.null = (.failed, dfFix) ∧
    (∃ c2 v2, update_employee_row dfFix 0
      [("Department", Value.str "Marketing")] "x" (Frac.ofInt 0) Value.null =
      .error (.validationError c2 v2)) := by
  have h := claim4_validation_gate dfFix 0
    [("Department", Value.str "Marketing")] "x" (Frac.ofInt 0) Value.null
    "Department" (Value.str "Marketing") ⟨0, 0, 0⟩ (by decide) (by decide)
    (Or.inl rfl) (by decide) (by decide) (by decide)
  exact ⟨h.2.1, h.1⟩

/- ----- claim C5 ----- -/

/-- C5, counterexample to the claim as stated: when the fetch tool call
reports an error (the store cannot be read), run_agent logs it and
continues with an empty employee list; the run completes normally
(fatal = false) with a zero-total summary instead of propagating the
failure to the process boundary. -/
theorem claim5_counterexample :
    runAgent parseFix 0 Value.null dfFix .toolError = ⟨0, 0, 0, 0, false⟩ ∧
    (runAgent parseFix 0 Value.null dfFix .toolError).fatal ≠ true := by
  decide

/-- C5, amended: a fetch-stage failure surfaced as a tool error result
is converted into an empty employee list, so no rows are processed and
the run completes normally with a zero-total summary; only a failure to
set up the session before the tool call propagates as fatal (after the
summary is printed). -/
theorem claim5_fetch_failure (p : String → Option Int) (t : Int)
    (now : Value) (df : DataFrame) :
    runAgent p t now df .toolError = ⟨0, 0, 0, 0, false⟩ ∧
    runAgent p t now df .connectFail = ⟨0, 0, 0, 0, true⟩ :=
  ⟨rfl, rfl⟩

/- ----- claim C7 ----- -/

/-- C7 (confirmed): an oracle failure for a row is caught at the per-row
boundary, yields a failed result with the store untouched, and the loop
continues with the remaining rows; the counters always account for
every row (success + failed + skipped grows by exactly the number of
rows processed); and the summary is produced on every run, including a
fatal one (connectFail) and a normal one. -/
theorem claim7_per_row_isolation (p : String → Option Int) (t : Int)
    (now : Value) :
    (∀ (df : DataFrame) (it : RowItem) (e : Unit), it.oracle = .error e →
      processRow p t now df it = (.failed, df)) ∧
    (∀ (df : DataFrame) (it : RowItem) (rest : List RowItem) (s : Stats),
      processAll p t now df (it :: rest) s =
        processAll p t now (processRow p t now df it).2 rest
          (applyResult s (processRow p t now df it).1)) ∧
    (∀ (items : List RowItem) (df : DataFrame) (s : Stats),
      (processAll p t now df items s).1.success +
        (processAll p t now df items s).1.failed +
        (processAll p t now df items s).1.skipped =
        s.success + s.failed + s.skipped + items.length) ∧
    (∀ df, runAgent p t now df .connectFail = ⟨0, 0, 0, 0, true⟩) ∧
    (∀ (df : DataFrame) (items : List RowItem), items.length ≠ 0 →
      runAgent p t now df (.ok items) =
        ⟨items.length,
         (processAll p t now df items ⟨0, 0, 0⟩).1.success,
         (processAll p t now df items ⟨0, 0, 0⟩).1.failed,
         (processAll p t now df items ⟨0, 0, 0⟩).1.skipped, false⟩) := by
  refine ⟨?_, ?_, ?_, ?_, ?_⟩
  · intro df it e h
    unfold processRow
    rw [h]
  · intro df it rest s
    rfl
  · intro items
    induction items with
    | nil => intro df s; rfl
    | cons it rest ih =>
      intro df s
      have hstep : processAll p t now df (it :: rest) s =
          processAll p t now (processRow p t now df it).2 rest
            (applyResult s (processRow p t now df it).1) := rfl
      rw [hstep, ih]
      cases (processRow p t now df it).1 <;> simp [applyResult] <;> omega
  · intro df
    rfl
  · intro df items h
    simp only [runAgent]
    rw [if_neg h]

/-- C7 witness: a one-row run whose oracle call fails is counted failed,
the loop reaches the end, and the summary reports one failure. -/
theorem claim7_witness :
    processRow parseFix 365 Value.null dfFix itemOracleFail =
      (.failed, dfFix) ∧
    (processAll parseFix 365 Value.null dfFix
      [itemOracleFail, itemFixMatch] ⟨0, 0, 0⟩).1.success +
      (processAll parseFix 365 Value.null dfFix
        [itemOracleFail, itemFixMatch] ⟨0, 0, 0⟩).1.failed +
      (processAll parseFix 365 Value.null dfFix
        [itemOracleFail, itemFixMatch] ⟨0, 0, 0⟩).1.skipped = 2 ∧
    runAgent parseFix 365 Value.null dfFix .connectFail =
      ⟨0, 0, 0, 0, true⟩ := by
  have h := claim7_per_row_isolation parseFix 365 Value.null
  refine ⟨h.1 dfFix itemOracleFail () rfl, ?_, h.2.2.2.1 dfFix⟩
  have hc := h.2.2.1 [itemOracleFail, itemFixMatch] dfFix ⟨0, 0, 0⟩
  simpa using hc

/- ----- claim C6 ----- -/

/-- C6 (code bug): with max_retries = 3 and every attempt returning
malformed JSON, llm_decide performs 15 API calls and 14 sleeps before
raising: the inner JSON-decode retry recursion runs inside the outer
try block, so a failure re-raised from it is caught again by the outer
handler, which sleeps and retries once more at the same retry count.
The claim — and the code's own log messages ("attempt k/3") — allow at
most max_retries additional attempts (4 calls, 3 sleeps).  The bound
does hold on the transport-failure-only path, every sleep is exactly
retry_delay, an exhausted run propagates the failure (none) rather than
fabricating a decision, and a successful attempt's decision is
returned. -/
theorem claim6_retry_explosion :
    llm_decide (fun _ => Attempt.malformed) 3 (Frac.ofInt 2) 0 =
      (none, 15, List.replicate 14 (Frac.ofInt 2)) ∧
    ¬(15 ≤ 1 + 3) ∧
    llm_decide (fun _ => Attempt.transportFail) 3 (Frac.ofInt 2) 0 =
      (none, 4, List.replicate 3 (Frac.ofInt 2)) ∧
    llm_decide (fun _ => Attempt.ok decFixMatch) 3 (Frac.ofInt 2) 0 =
      (some decFixMatch, 1, []) := by decide

/- ----- claim C8 helpers ----- -/

theorem contains_of_mem {a : String} {l : List String} (h : a ∈ l) :
    l.contains a = true := by
  show List.elem a l = true
  exact List.elem_iff.mpr h

theorem stageField_some_eq (cur : Value) (dec w : String)
    (h : stageField cur dec = some w) : w = dec ∧ (dec == "") = false := by
  unfold stageField at h
  by_cases h1 : (isEmptyCell cur && !(dec == "")) = true
  · rw [if_pos h1] at h
    injection h with h
    subst h
    exact ⟨rfl, by
      rcases Bool.and_eq_true .. |>.mp h1 with ⟨_, hh⟩
      cases hdec : dec == ""
      · rfl
      · rw [hdec] at hh
        exact absurd hh (by decide)⟩
  · rw [if_neg h1] at h
    by_cases h2 : (cur.truthy && !(dec == "") &&
        !(pyStrip cur.pyStr == pyStrip dec)) = true
    · rw [if_pos h2] at h
      injection h with h
      subst h
      refine ⟨rfl, ?_⟩
      rcases Bool.and_eq_true .. |>.mp h2 with ⟨hh, _⟩
      rcases Bool.and_eq_true .. |>.mp hh with ⟨_, hh2⟩
      cases hdec : dec == ""
      · rfl
      · rw [hdec] at hh2
        exact absurd hh2 (by decide)
    · rw [if_neg h2] at h
      exact absurd h (by simp)

theorem stageField_str_decision_none (X : Value)
    (h : (decisionField X == "") = false) :
    stageField (Value.str (decisionField X)) (decisionField X) = none := by
  apply stageField_none_of_match
  · show isEmptyCell (Value.str (decisionField X)) = false
    unfold isEmptyCell
    simp only [Value.truthy, Value.isna, Value.pyStr]
    rw [decisionField_stripped, h]
    rfl
  · exact decisionField_stripped X

theorem validateUpdates_buildUpdates (p : String → Option Int) (t : Int)
    (data : String → Value) (d : Decision)
    (hv1 : decisionField d.department = "" ∨
      decisionField d.department ∈ departmentEnum)
    (hv2 : decisionField d.designation = "" ∨
      decisionField d.designation ∈ designationEnum)
    (hv3 : decisionField d.salaryBand = "" ∨
      decisionField d.salaryBand ∈ salaryBandEnum) :
    validateUpdates (buildUpdates p t data d).1 = none := by
  unfold validateUpdates
  rw [List.find?_eq_none]
  intro q hq
  have hNd := buildUpdates_keys_nodup p t data d
  have hlook := lookup_of_mem_nodup _ _ _ hNd hq
  rcases buildUpdates_keys_sub p t data d q hq with hk | hk | hk | hk
  · intro hpred
    rw [hk] at hpred
    rcases Bool.and_eq_true .. |>.mp hpred with ⟨hh, _⟩
    rcases Bool.and_eq_true .. |>.mp hh with ⟨hh2, _⟩
    rcases Bool.and_eq_true .. |>.mp hh2 with ⟨hdd, _⟩
    exact absurd hdd (by decide)
  all_goals
    obtain ⟨c, v⟩ := q
    simp only at hk
    subst hk
  · rw [buildUpdates_lookup_dept] at hlook
    cases hst : stageField (data "Department") (decisionField d.department)
      with
    | none => rw [hst] at hlook; simp at hlook
    | some w =>
      rw [hst] at hlook
      injection hlook with hlook
      obtain ⟨hw, hne⟩ := stageField_some_eq _ _ _ hst
      subst hw
      rcases hv1 with hv | hv
      · rw [hv] at hne
        simp at hne
      · intro hpred
        rw [← hlook] at hpred
        rcases Bool.and_eq_true .. |>.mp hpred with ⟨_, hbad⟩
        have : valInList (Value.str (decisionField d.department))
            (DROPDOWNS "Department") = true := by
          show (departmentEnum.contains (decisionField d.department)) = true
          exact contains_of_mem hv
        rw [this] at hbad
        exact absurd hbad (by decide)
  · rw [buildUpdates_lookup_desig] at hlook
    cases hst : stageField (data "Designation") (decisionField d.designation)
      with
    | none => rw [hst] at hlook; simp at hlook
    | some w =>
      rw [hst] at hlook
      injection hlook with hlook
      obtain ⟨hw, hne⟩ := stageField_some_eq _ _ _ hst
      subst hw
      rcases hv2 with hv | hv
      · rw [hv] at hne
        simp at hne
      · intro hpred
        rw [← hlook] at hpred
        rcases Bool.and_eq_true .. |>.mp hpred with ⟨_, hbad⟩
        have : valInList (Value.str (decisionField d.designation))
            (DROPDOWNS "Designation") = true := by
          show (designationEnum.contains (decisionField d.designation)) = true
          exact contains_of_mem hv
        rw [this] at hbad
        exact absurd hbad (by decide)
  · rw [buildUpdates_lookup_band] at hlook
    cases hst : stageField (data "Salary_Band") (decisionField d.salaryBand)
      with
    | none => rw [hst] at hlook; simp at hlook
    | some w =>
      rw [hst] at hlook
      injection hlook with hlook
      obtain ⟨hw, hne⟩ := stageField_some_eq _ _ _ hst
      subst hw
      rcases hv3 with hv | hv
      · rw [hv] at hne
        simp at hne
      · intro hpred
        rw [← hlook] at hpred
        rcases Bool.and_eq_true .. |>.mp hpred with ⟨_, hbad⟩
        have : valInList (Value.str (decisionField d.salaryBand))
            (DROPDOWNS "Salary_Band") = true := by
          show (salaryBandEnum.contains (decisionField d.salaryBand)) = true
          exact contains_of_mem hv
        rw [this] at hbad
        exact absurd hbad (by decide)

theorem setAudit_Wf (df : DataFrame) (i : Nat) (r : String) (cf : Frac)
    (now : Value) (hW : df.Wf) : (setAudit df i r cf now).Wf := by
  unfold setAudit
  exact setByName_Wf _ _ _ _ (setByName_Wf _ _ _ _ (setByName_Wf _ _ _ _
    (setByName_Wf _ _ _ _ hW)))

theorem processRow_write_char (p : String → Option Int) (t : Int)
    (now : Value) (df : DataFrame) (d : Decision) (rid : Nat)
    (_hW : df.Wf) (hlen : rid < df.cells.length)
    (hreq : ∀ c ∈ requiredColumns, df.columns.contains c = true)
    (hv1 : decisionField d.department = "" ∨
      decisionField d.department ∈ departmentEnum)
    (hv2 : decisionField d.designation = "" ∨
      decisionField d.designation ∈ designationEnum)
    (hv3 : decisionField d.salaryBand = "" ∨
      decisionField d.salaryBand ∈ salaryBandEnum)
    (hneed : (buildUpdates p t (df.dataOf rid) d).2 = true) :
    processRow p t now df ⟨(rid : Int), df.dataOf rid, .ok d, false⟩ =
      (.success,
       setAudit (applyUpdates df rid (buildUpdates p t (df.dataOf rid) d).1)
         rid d.reason d.confidence now) := by
  have hbounds : ¬(((rid : Int) : Int) < 0 ∨
      (df.cells.length : Int) ≤ ((rid : Int) : Int)) := by
    omega
  have hval := validateUpdates_buildUpdates p t (df.dataOf rid) d hv1 hv2 hv3
  have hens : ensureAuditColumns df = df :=
    ensureAudit_eq_self df (hreq _ (by decide)) (hreq _ (by decide))
      (hreq _ (by decide)) (hreq _ (by decide)) (hreq _ (by decide))
      (hreq _ (by decide))
  have htn : ((rid : Int)).toNat = rid := rfl
  have hupd : update_employee_row df (rid : Int)
      (buildUpdates p t (df.dataOf rid) d).1 d.reason d.confidence now =
      .ok (setAudit
        (applyUpdates df rid (buildUpdates p t (df.dataOf rid) d).1) rid
        d.reason d.confidence now) := by
    rw [update_ok_iff]
    refine ⟨hbounds, hval, ?_⟩
    rw [hens, htn]
  simp only [processRow]
  rw [if_neg (by
    rw [hneed]
    simp)]
  rw [if_neg (by simp)]
  unfold attemptWrite
  rw [hupd]

theorem second_run_stage_none (p : String → Option Int) (t : Int)
    (df : DataFrame) (d : Decision) (rid : Nat) (F : String) (X : Value)
    (now : Value) (df1 : DataFrame)
    (hW : df.Wf) (hlen : rid < df.cells.length)
    (hFcol : df.columns.contains F = true) (hFaud : F ∉ auditCols)
    (hdf1 : df1 = setAudit
      (applyUpdates df rid (buildUpdates p t (df.dataOf rid) d).1) rid
      d.reason d.confidence now)
    (hlook : (buildUpdates p t (df.dataOf rid) d).1.lookup F =
      (stageField (df.dataOf rid F) (decisionField X)).map Value.str) :
    stageField (df1.dataOf rid F) (decisionField X) = none := by
  have hNd := buildUpdates_keys_nodup p t (df.dataOf rid) d
  cases hst : stageField (df.dataOf rid F) (decisionField X) with
  | some w =>
    obtain ⟨hw, hne⟩ := stageField_some_eq _ _ _ hst
    subst hw
    have hmem : (F, Value.str (decisionField X)) ∈
        (buildUpdates p t (df.dataOf rid) d).1 := by
      apply lookup_some_mem
      rw [hlook, hst]
      rfl
    have hdA : (applyUpdates df rid
        (buildUpdates p t (df.dataOf rid) d).1).dataOf rid F =
        Value.str (decisionField X) := by
      apply dataOf_applyUpdates_key _ _ _ _ _ hNd hmem ?_ hFcol hW hlen
      show (!(decisionField X == "")) = true
      rw [hne]
      rfl
    have hd1 : df1.dataOf rid F = Value.str (decisionField X) := by
      rw [hdf1, dataOf_setAudit_other _ _ _ _ _ _ _ hFaud]
      exact hdA
    rw [hd1]
    exact stageField_str_decision_none X hne
  | none =>
    have hnk : F ∉ ((buildUpdates p t (df.dataOf rid) d).1.map Prod.fst) := by
      intro hmap
      obtain ⟨q, hqm, hfst⟩ := List.mem_map.mp hmap
      obtain ⟨c, v⟩ := q
      simp only [] at hfst
      subst hfst
      have hl := lookup_of_mem_nodup _ _ _ hNd hqm
      rw [hlook, hst] at hl
      simp at hl
    have hdA := dataOf_applyUpdates_not_key
      (buildUpdates p t (df.dataOf rid) d).1 df rid rid F hnk
    have hd1 : df1.dataOf rid F = df.dataOf rid F := by
      rw [hdf1, dataOf_setAudit_other _ _ _ _ _ _ _ hFaud]
      exact hdA
    rw [hd1]
    exact hst

/- ----- claim C8 ----- -/

/-- C8, amended: running reconciliation twice on the same row with the
same "today" and the same oracle decision — with the store well-formed,
all REQUIRED_COLUMNS present, and each decision value either empty or a
member of its enumeration (so the first write passes validation) —
stages zero classification-field changes on the second run (only
Experience_Years re-stages, since it always stages when computable);
and if the first run staged anything (needs_write true), Is_Processed
is "Yes" after the first run and remains "Yes" after the second run,
whether the second run writes again or skips.  If the first run skipped,
the store is unchanged and Is_Processed keeps whatever value it had. -/
theorem claim8_idempotent (p : String → Option Int) (t : Int)
    (now now2 : Value) (df : DataFrame) (d : Decision) (rid : Nat)
    (hW : df.Wf) (hlen : rid < df.cells.length)
    (hreq : ∀ c ∈ requiredColumns, df.columns.contains c = true)
    (hv1 : decisionField d.department = "" ∨
      decisionField d.department ∈ departmentEnum)
    (hv2 : decisionField d.designation = "" ∨
      decisionField d.designation ∈ designationEnum)
    (hv3 : decisionField d.salaryBand = "" ∨
      decisionField d.salaryBand ∈ salaryBandEnum) :
    ∀ df1, df1 = (processRow p t now df
        ⟨(rid : Int), df.dataOf rid, .ok d, false⟩).2 →
      ((buildUpdates p t (df1.dataOf rid) d).1.lookup "Department" = none ∧
       (buildUpdates p t (df1.dataOf rid) d).1.lookup "Designation" = none ∧
       (buildUpdates p t (df1.dataOf rid) d).1.lookup "Salary_Band" = none) ∧
      ((buildUpdates p t (df.dataOf rid) d).2 = true →
        df1.dataOf rid "Is_Processed" = Value.str "Yes" ∧
        (processRow p t now2 df1
          ⟨(rid : Int), df1.dataOf rid, .ok d, false⟩).2.dataOf rid
            "Is_Processed" = Value.str "Yes") := by
  intro df1 hdf1
  by_cases hneed : (buildUpdates p t (df.dataOf rid) d).2 = true
  · have hrun := processRow_write_char p t now df d rid hW hlen hreq hv1 hv2
      hv3 hneed
    have hdf1s : df1 = setAudit
        (applyUpdates df rid (buildUpdates p t (df.dataOf rid) d).1) rid
        d.reason d.confidence now := by
      rw [hdf1, hrun]
    have hWA : (applyUpdates df rid
        (buildUpdates p t (df.dataOf rid) d).1).Wf :=
      applyUpdates_Wf _ _ _ hW
    have hcolsA : (applyUpdates df rid
        (buildUpdates p t (df.dataOf rid) d).1).columns = df.columns :=
      applyUpdates_columns ..
    have hlenA : (applyUpdates df rid
        (buildUpdates p t (df.dataOf rid) d).1).cells.length =
        df.cells.length := applyUpdates_length ..
    have hW1 : df1.Wf := by
      rw [hdf1s]
      exact setAudit_Wf _ _ _ _ _ hWA
    have hcols1 : df1.columns = df.columns := by
      rw [hdf1s, setAudit_columns, hcolsA]
    have hlen1 : df1.cells.length = df.cells.length := by
      rw [hdf1s, setAudit_length, hlenA]
    have hreq1 : ∀ c ∈ requiredColumns, df1.columns.contains c = true := by
      intro c hc
      rw [hcols1]
      exact hreq c hc
    have hIs1 : df1.dataOf rid "Is_Processed" = Value.str "Yes" := by
      rw [hdf1s]
      exact (dataOf_setAudit_fields _ rid d.reason d.confidence now hWA
        (by rw [hlenA]; exact hlen)
        (by rw [hcolsA]; exact hreq _ (by decide))
        (by rw [hcolsA]; exact hreq _ (by decide))
        (by rw [hcolsA]; exact hreq _ (by decide))
        (by rw [hcolsA]; exact hreq _ (by decide))).1
    refine ⟨⟨?_, ?_, ?_⟩, fun _ => ⟨hIs1, ?_⟩⟩
    · rw [buildUpdates_lookup_dept,
        second_run_stage_none p t df d rid "Department" d.department now df1
          hW hlen (hreq _ (by decide)) (by decide) hdf1s
          (buildUpdates_lookup_dept p t (df.dataOf rid) d)]
      rfl
    · rw [buildUpdates_lookup_desig,
        second_run_stage_none p t df d rid "Designation" d.designation now
          df1 hW hlen (hreq _ (by decide)) (by decide) hdf1s
          (buildUpdates_lookup_desig p t (df.dataOf rid) d)]
      rfl
    · rw [buildUpdates_lookup_band,
        second_run_stage_none p t df d rid "Salary_Band" d.salaryBand now
          df1 hW hlen (hreq _ (by decide)) (by decide) hdf1s
          (buildUpdates_lookup_band p t (df.dataOf rid) d)]
      rfl
    · by_cases hneed2 : (buildUpdates p t (df1.dataOf rid) d).2 = true
      · have hrun2 := processRow_write_char p t now2 df1 d rid hW1
          (by rw [hlen1]; exact hlen) hreq1 hv1 hv2 hv3 hneed2
        rw [hrun2]
        have hWA2 : (applyUpdates df1 rid
            (buildUpdates p t (df1.dataOf rid) d).1).Wf :=
          applyUpdates_Wf _ _ _ hW1
        exact (dataOf_setAudit_fields _ rid d.reason d.confidence now2 hWA2
          (by rw [applyUpdates_length, hlen1]; exact hlen)
          (by rw [applyUpdates_columns]; exact hreq1 _ (by decide))
          (by rw [applyUpdates_columns]; exact hreq1 _ (by decide))
          (by rw [applyUpdates_columns]; exact hreq1 _ (by decide))
          (by rw [applyUpdates_columns]; exact hreq1 _ (by decide))).1
      · have hn2 : (buildUpdates p t (df1.dataOf rid) d).2 = false := by
          cases h : (buildUpdates p t (df1.dataOf rid) d).2
          · rfl
          · exact absurd h hneed2
        have hu2 : (buildUpdates p t (df1.dataOf rid) d).1 = [] :=
          buildUpdates_empty_of_not_needs p t (df1.dataOf rid) d hn2
        have hskip : processRow p t now2 df1
            ⟨(rid : Int), df1.dataOf rid, .ok d, false⟩ = (.skipped, df1) := by
          simp [processRow, hn2, hu2]
        rw [hskip]
        exact hIs1
  · have hn1 : (buildUpdates p t (df.dataOf rid) d).2 = false := by
      cases h : (buildUpdates p t (df.dataOf rid) d).2
      · rfl
      · exact absurd h hneed
    have hu1 : (buildUpdates p t (df.dataOf rid) d).1 = [] :=
      buildUpdates_empty_of_not_needs p t (df.dataOf rid) d hn1
    have hskip : processRow p t now df
        ⟨(rid : Int), df.dataOf rid, .ok d, false⟩ = (.skipped, df) := by
      simp [processRow, hn1, hu1]
    have hdf1d : df1 = df := by
      rw [hdf1, hskip]
    subst hdf1d
    refine ⟨⟨?_, ?_, ?_⟩, fun h => absurd h hneed⟩
    · rw [buildUpdates_lookup_dept]
      cases hst : stageField (df1.dataOf rid "Department")
          (decisionField d.department) with
      | none => rfl
      | some w =>
        exfalso
        rw [buildUpdates_needs, hst] at hn1
        simp at hn1
    · rw [buildUpdates_lookup_desig]
      cases hst : stageField (df1.dataOf rid "Designation")
          (decisionField d.designation) with
      | none => rfl
      | some w =>
        exfalso
        rw [buildUpdates_needs, hst] at hn1
        simp at hn1
    · rw [buildUpdates_lookup_band]
      cases hst : stageField (df1.dataOf rid "Salary_Band")
          (decisionField d.salaryBand) with
      | none => rfl
      | some w =>
        exfalso
        rw [buildUpdates_needs, hst] at hn1
        simp at hn1

/-- C8, counterexample to the claim as stated: a fully stable row (all
classification fields match the decision) with an unparseable join date
is skipped by the first run, so Is_Processed stays "No" after it — the
claim asserts it is "Yes" after the first run for every record. -/
theorem claim8_counterexample :
    (processRow (fun _ => none) 365 Value.null dfFix
      ⟨0, dfFix.dataOf 0, .ok decFixMatch, false⟩).2.dataOf 0
      "Is_Processed" = Value.str "No" ∧
    pyStrip ((dfFix.dataOf 0) "Department").pyStr =
      decisionField decFixMatch.department ∧
    pyStrip ((dfFix.dataOf 0) "Designation").pyStr =
      decisionField decFixMatch.designation ∧
    pyStrip ((dfFix.dataOf 0) "Salary_Band").pyStr =
      decisionField decFixMatch.salaryBand := by decide

/-- C8 witness: a row with an empty Department is filled and written by
the first run; Is_Processed flips to "Yes" and stays "Yes" after the
second run. -/
theorem claim8_witness :
    (buildUpdates parseFix 365 (dfBlank.dataOf 0) decFixMatch).2 = true ∧
    ((processRow parseFix 365 (Value.str "t1") dfBlank
        ⟨((0 : Nat) : Int), dfBlank.dataOf 0, .ok decFixMatch,
          false⟩).2.dataOf 0 "Is_Processed" = Value.str "Yes" ∧
      (processRow parseFix 365 (Value.str "t2")
        (processRow parseFix 365 (Value.str "t1") dfBlank
          ⟨((0 : Nat) : Int), dfBlank.dataOf 0, .ok decFixMatch, false⟩).2
        ⟨((0 : Nat) : Int),
          ((processRow parseFix 365 (Value.str "t1") dfBlank
            ⟨((0 : Nat) : Int), dfBlank.dataOf 0, .ok decFixMatch,
              false⟩).2).dataOf 0,
          .ok decFixMatch, false⟩).2.dataOf 0 "Is_Processed" =
        Value.str "Yes") := by
  have h := claim8_idempotent parseFix 365 (Value.str "t1") (Value.str "t2")
    dfBlank decFixMatch 0
    (by
      intro r hr
      rw [List.mem_singleton.mp hr]
      rfl)
    (by decide) (by decide)
    (Or.inr (by decide)) (Or.inr (by decide)) (Or.inr (by decide))
    ((processRow parseFix 365 (Value.str "t1") dfBlank
      ⟨((0 : Nat) : Int), dfBlank.dataOf 0, .ok decFixMatch, false⟩).2) rfl
  exact ⟨by decide, h.2 (by decide)⟩

/- ----- claims C9 and C10 ----- -/

theorem dataOf_applyUpdates_falsy (u : List (String × Value)) :
    ∀ (df : DataFrame) (i i' : Nat) (c : String) (v : Value),
      (u.map Prod.fst).Nodup → (c, v) ∈ u → v.truthy = false →
      (applyUpdates df i u).dataOf i' c = df.dataOf i' c := by
  induction u with
  | nil => intro df i i' c v _ hmem; simp at hmem
  | cons p rest ih =>
    intro df i i' c v hNd hmem ht
    obtain ⟨c0, v0⟩ := p
    simp only [List.map_cons, List.nodup_cons] at hNd
    rcases List.mem_cons.mp hmem with heq | hrest
    · obtain ⟨h1, h2⟩ := Prod.mk.inj heq
      subst h1
      subst h2
      simp only [applyUpdates]
      rw [if_neg (by rw [ht]; simp)]
      exact dataOf_applyUpdates_not_key rest df i i' c hNd.1
    · have hne : c ≠ c0 := by
        intro he
        subst he
        exact hNd.1 (List.mem_map.mpr ⟨(c, v), hrest, rfl⟩)
      simp only [applyUpdates]
      by_cases htr : v0.truthy = true
      · rw [if_pos htr]
        by_cases hc0 : df.columns.contains c0 = true
        · rw [if_pos hc0, ih _ i i' c v hNd.2 hrest ht]
          exact dataOf_setByName_col_ne df i i' c0 c v0 hne
        · rw [if_neg hc0]
          exact ih _ i i' c v hNd.2 hrest ht
      · rw [if_neg htr]
        exact ih _ i i' c v hNd.2 hrest ht

/-- C9, amended: a successful update_employee_row on a well-formed store
whose six audit columns already exist, with duplicate-free update keys,
sets on the target row Is_Processed = "Yes", AI_Decision_Reason to the
given reason, Confidence_Score to the given confidence,
Last_Processed_On to the current timestamp, and every truthy staged
value whose column exists and is not an audit column (falsy staged
values are skipped — see the counterexample and claim C10); the column
set is unchanged and every row other than row_id keeps all its cells. -/
theorem claim9_write_postcondition (df : DataFrame) (rid : Int)
    (u : List (String × Value)) (r : String) (cf : Frac) (now : Value)
    (df' : DataFrame) (hW : df.Wf) (hNd : (u.map Prod.fst).Nodup)
    (h1 : df.columns.contains "Is_Processed" = true)
    (h2 : df.columns.contains "AI_Decision_Reason" = true)
    (h3 : df.columns.contains "Confidence_Score" = true)
    (h4 : df.columns.contains "Last_Processed_On" = true)
    (h5 : df.columns.contains "Processing_Version" = true)
    (h6 : df.columns.contains "Rule_Applied" = true)
    (hok : update_employee_row df rid u r cf now = .ok df') :
    (0 ≤ rid ∧ rid < (df.cells.length : Int)) ∧
    df'.columns = df.columns ∧
    df'.dataOf rid.toNat "Is_Processed" = Value.str "Yes" ∧
    df'.dataOf rid.toNat "AI_Decision_Reason" = Value.str r ∧
    df'.dataOf rid.toNat "Confidence_Score" = Value.num cf ∧
    df'.dataOf rid.toNat "Last_Processed_On" = now ∧
    (∀ c v, (c, v) ∈ u → v.truthy = true → df.columns.contains c = true →
      c ∉ auditCols → df'.dataOf rid.toNat c = v) ∧
    (∀ i, i ≠ rid.toNat → df'.cells.getD i [] = df.cells.getD i []) := by
  rw [update_ok_iff] at hok
  obtain ⟨hb, hval, hdf⟩ := hok
  have hens : ensureAuditColumns df = df :=
    ensureAudit_eq_self df h1 h2 h3 h4 h5 h6
  rw [hens] at hdf
  have hbounds : 0 ≤ rid ∧ rid < (df.cells.length : Int) := by omega
  have hlt : rid.toNat < df.cells.length := by omega
  have hWA : (applyUpdates df rid.toNat u).Wf := applyUpdates_Wf _ _ _ hW
  have hcolsA : (applyUpdates df rid.toNat u).columns = df.columns :=
    applyUpdates_columns ..
  have hlenA : (applyUpdates df rid.toNat u).cells.length =
      df.cells.length := applyUpdates_length ..
  have haud := dataOf_setAudit_fields (applyUpdates df rid.toNat u)
    rid.toNat r cf now hWA (by rw [hlenA]; exact hlt)
    (by rw [hcolsA]; exact h1) (by rw [hcolsA]; exact h2)
    (by rw [hcolsA]; exact h3) (by rw [hcolsA]; exact h4)
  subst hdf
  refine ⟨hbounds, by rw [setAudit_columns, hcolsA], haud.1, haud.2.1,
    haud.2.2.1, haud.2.2.2, ?_, ?_⟩
  · intro c v hmem ht hc hcaud
    rw [dataOf_setAudit_other _ _ _ _ _ _ _ hcaud]
    exact dataOf_applyUpdates_key u df rid.toNat c v hNd hmem ht hc hW hlt
  · intro i hi
    rw [setAudit_row_frame _ _ _ _ _ _ hi, applyUpdates_row_frame _ _ _ _ hi]

/-- C9, counterexample to the claim as stated: a successful row update
staging Experience_Years = 0 does not set the staged value — the stored
1.0 survives — because the apply loop skips falsy values; so the claim's
"in addition to the staged field values" fails without a truthiness
qualification. -/
theorem claim9_counterexample :
    ((update_employee_row dfFix 0
      [("Experience_Years", Value.num (Frac.ofInt 0))] "r" (fmk 1 2)
      Value.null).toOption.map
        (fun d2 => d2.dataOf 0 "Experience_Years")) =
      some (Value.num (Frac.ofInt 1)) ∧
    Value.num (Frac.ofInt 1) ≠ Value.num (Frac.ofInt 0) := by decide

/-- C9 witness: a valid truthy update ("Department" = "AI") on the
fixture store. -/
theorem claim9_witness :
    df9.dataOf 0 "Is_Processed" = Value.str "Yes" ∧
    df9.dataOf 0 "Department" = Value.str "AI" ∧
    df9.dataOf 0 "AI_Decision_Reason" = Value.str "r" ∧
    df9.columns = dfFix.columns := by
  have h := claim9_write_postcondition dfFix 0
    [("Department", Value.str "AI")] "r" (fmk 1 2) (Value.str "TS") df9
    (by
      intro r hr
      rw [List.mem_singleton.mp hr]
      rfl)
    (by decide) (by decide) (by decide) (by decide) (by decide) (by decide)
    (by decide) rfl
  exact ⟨h.2.2.1, h.2.2.2.2.2.2.1 "Department" (Value.str "AI") (by decide)
    (by decide) (by decide) (by decide), h.2.2.2.1, h.2.1⟩

/-- C10 (confirmed, implicit behavior): the apply loop's `if val:` guard
silently skips every update entry whose value is Python-falsy (None,
empty string, numeric 0 or 0.0, boolean False) even when the column
exists and passed validation (falsy values also bypass validation), so
a successful update leaves such a cell unchanged; in particular a
computed Experience_Years of 0.0 (join date equal to today) is staged
by the reconciliation loop, the write succeeds, yet the stored
Experience_Years value survives unchanged. -/
theorem claim10_falsy_values_skipped :
    (∀ (df : DataFrame) (rid : Int) (u : List (String × Value)) (r : String)
      (cf : Frac) (now : Value) (df' : DataFrame) (c : String) (v : Value),
      df.Wf → (u.map Prod.fst).Nodup →
      df.columns.contains "Is_Processed" = true →
      df.columns.contains "AI_Decision_Reason" = true →
      df.columns.contains "Confidence_Score" = true →
      df.columns.contains "Last_Processed_On" = true →
      df.columns.contains "Processing_Version" = true →
      df.columns.contains "Rule_Applied" = true →
      (c, v) ∈ u → v.truthy = false → c ∉ auditCols →
      update_employee_row df rid u r cf now = .ok df' →
      df'.dataOf rid.toNat c = df.dataOf rid.toNat c) ∧
    ("Experience_Years", Value.num (Frac.ofInt 0)) ∈
      (buildUpdates parseFix 0 (dfFix.dataOf 0) decFixMatch).1 ∧
    (buildUpdates parseFix 0 (dfFix.dataOf 0) decFixMatch).2 = true ∧
    (processRow parseFix 0 Value.null dfFix
      ⟨0, dfFix.dataOf 0, .ok decFixMatch, false⟩).1 = .success ∧
    (processRow parseFix 0 Value.null dfFix
      ⟨0, dfFix.dataOf 0, .ok decFixMatch, false⟩).2.dataOf 0
      "Experience_Years" = Value.num (Frac.ofInt 1) := by
  refine ⟨?_, by decide, by decide, by decide, by decide⟩
  intro df rid u r cf now df' c v hW hNd h1 h2 h3 h4 h5 h6 hmem ht hcaud hok
  rw [update_ok_iff] at hok
  obtain ⟨hb, hval, hdf⟩ := hok
  rw [ensureAudit_eq_self df h1 h2 h3 h4 h5 h6] at hdf
  subst hdf
  rw [dataOf_setAudit_other _ _ _ _ _ _ _ hcaud]
  exact dataOf_applyUpdates_falsy u df rid.toNat rid.toNat c v hNd hmem ht

/-- C10 witness: the falsy Experience_Years update on the fixture store
leaves the stored value untouched after a successful write. -/
theorem claim10_witness :
    df10.dataOf 0 "Experience_Years" = dfFix.dataOf 0 "Experience_Years" :=
  (claim10_falsy_values_skipped).1 dfFix 0
    [("Experience_Years", Value.num (Frac.ofInt 0))] "r" (fmk 1 2)
    Value.null df10 "Experience_Years" (Value.num (Frac.ofInt 0))
    (by
      intro r hr
      rw [List.mem_singleton.mp hr]
      rfl)
    (by decide) (by decide) (by decide) (by decide) (by decide) (by decide)
    (by decide) (by decide) (by decide) (by decide) rfl
